import Mathlib

/-!
Verification of the core of a runtime interpreter for declarative binary
format definitions (a Kaitai Struct runtime written in TypeScript).  The
definitions below are shallow embeddings of the source files:

* `KaitaiStream` and its typed reads — src/stream/KaitaiStream.ts;
* the expression evaluator and its coercion helpers — src/expression/Evaluator.ts;
* the execution context — src/interpreter/Context.ts;
* the schema model helpers — src/parser/schema.ts;
* the type interpreter — src/interpreter/TypeInterpreter.ts.

Modelling conventions, stated once here:

* JavaScript numbers are modelled as `Int`; every claim under study only
  exercises integer arithmetic.  Where the source can produce non-integer
  numbers (float division, `parseFloat`) the model returns the
  distinguished error `KError.notModelled`; no claim reaches those paths.
* IEEE-754 float reads return the raw little/big-endian bit pattern; the
  claims about float reads concern only position and error behaviour.
* Host text decoders (`TextDecoder`) are external; `decodeString` maps
  each byte to its code point (exact for Latin-1 range data).  No claim
  depends on decoded text.
* Thrown exceptions are modelled with `Except`.  Stream methods return the
  updated stream on success; the TypeScript methods throw before mutating,
  so in the error case the unchanged pre-state is the state after the call.
* Interpreter methods additionally return the stream and context state
  reached when an exception escapes, since the TypeScript stream object
  survives a throw; they carry a recursion fuel parameter (the source
  recursion is unbounded; `KError.outOfFuel` marks exhausted fuel and is
  never produced by a run given enough fuel).
-/

/-- Error taxonomy of src/utils/errors.ts.  `eof` is `EOFError` and carries
the byte position at which the read was attempted; `jsError` is a plain
JavaScript `Error` (outside the Kaitai error taxonomy); `notModelled` and
`outOfFuel` are artifacts of the embedding described in the header. -/
inductive KError where
  | eof (pos : Nat)
  | jsError (msg : String)
  | parseError (msg : String)
  | validationError (msg : String) (pos : Nat)
  | notImplemented (feature : String)
  | notModelled (what : String)
  | outOfFuel
deriving Repr, DecidableEq

/-- State of `KaitaiStream`: the byte buffer plus the mutable fields
`_pos`, `_bits`, `_bitsLeft`.  Entries of `buffer` model `Uint8Array`
bytes (a `Uint8Array` guarantees values below 256; the model does not
impose the bound, and no claim needs it). -/
structure KaitaiStream where
  buffer : List Nat
  pos : Nat
  bits : Nat
  bitsLeft : Nat
deriving Repr, DecidableEq

/-- Getter `size`: total size of the stream in bytes. -/
def KaitaiStream.size (s : KaitaiStream) : Nat := s.buffer.length

/-- `isEof()`: whether the position has reached the end of the buffer. -/
def KaitaiStream.isEof (s : KaitaiStream) : Bool := s.pos ≥ s.buffer.length

/-- Setter `pos`: assigns `_pos` and resets `_bitsLeft` to 0 ("reset bit
reading when seeking").  Note that the typed reads below bump the private
`_pos` field directly and therefore do not go through this setter. -/
def KaitaiStream.setPos (s : KaitaiStream) (p : Nat) : KaitaiStream :=
  { s with pos := p, bitsLeft := 0 }

/-- `seek(pos)`: bounds check, then the `pos` setter.  The bounds failure
is a plain JavaScript `Error`, not an `EOFError`; it is thrown before any
mutation, so the stream is unchanged on failure. -/
def KaitaiStream.seek (s : KaitaiStream) (p : Int) : Except KError KaitaiStream :=
  if p < 0 ∨ p > (s.buffer.length : Int) then
    .error (.jsError "Invalid seek position")
  else
    .ok (s.setPos p.toNat)

/-- `ensureBytes(count)`: fails with `EOFError` carrying the pre-read
position when fewer than `count` bytes remain past `_pos`. -/
def KaitaiStream.ensureBytes (s : KaitaiStream) (count : Nat) : Except KError Unit :=
  if s.pos + count > s.buffer.length then .error (.eof s.pos) else .ok ()

/-- Indexing `this.buffer[i]` (reads beyond the end yield `undefined` in
JavaScript; the typed reads below only index within `ensureBytes` bounds,
where the default is irrelevant). -/
def KaitaiStream.byteAt (s : KaitaiStream) (i : Nat) : Nat := s.buffer.getD i 0

/-- Common shape shared verbatim by every fixed-width read of the source:
`ensureBytes w`, compute the value from the buffer at `_pos`, then advance
the private `_pos` field by `w` (not via the `pos` setter, hence without
touching the bit accumulator). -/
def KaitaiStream.ensuredRead {α : Type} (w : Nat) (val : KaitaiStream → α)
    (s : KaitaiStream) : Except KError (α × KaitaiStream) :=
  match s.ensureBytes w with
  | .error e => .error e
  | .ok _ => .ok (val s, { s with pos := s.pos + w })

/-- Little-endian unsigned value of `w` bytes at `_pos` (`DataView.getUintN`
with littleEndian = true). -/
def KaitaiStream.uleVal (s : KaitaiStream) (w : Nat) : Nat :=
  (List.range w).foldr (fun i acc => acc * 256 + s.byteAt (s.pos + i)) 0

/-- Big-endian unsigned value of `w` bytes at `_pos`. -/
def KaitaiStream.ubeVal (s : KaitaiStream) (w : Nat) : Nat :=
  (List.range w).foldl (fun acc i => acc * 256 + s.byteAt (s.pos + i)) 0

/-- Two's-complement reinterpretation of a `w`-byte unsigned value
(`DataView.getIntN`). -/
def toSigned (w u : Nat) : Int :=
  let m := u % 2 ^ (8 * w)
  if m ≥ 2 ^ (8 * w - 1) then (m : Int) - 2 ^ (8 * w) else (m : Int)

/-- `readU1()`. -/
def KaitaiStream.readU1 (s : KaitaiStream) : Except KError (Nat × KaitaiStream) :=
  ensuredRead 1 (fun t => t.byteAt t.pos) s

/-- `readU2le()`. -/
def KaitaiStream.readU2le (s : KaitaiStream) : Except KError (Nat × KaitaiStream) :=
  ensuredRead 2 (fun t => t.uleVal 2) s

/-- `readU2be()`. -/
def KaitaiStream.readU2be (s : KaitaiStream) : Except KError (Nat × KaitaiStream) :=
  ensuredRead 2 (fun t => t.ubeVal 2) s

/-- `readU4le()`. -/
def KaitaiStream.readU4le (s : KaitaiStream) : Except KError (Nat × KaitaiStream) :=
  ensuredRead 4 (fun t => t.uleVal 4) s

/-- `readU4be()`. -/
def KaitaiStream.readU4be (s : KaitaiStream) : Except KError (Nat × KaitaiStream) :=
  ensuredRead 4 (fun t => t.ubeVal 4) s

/-- `readU8le()` (the source returns a BigInt; the model returns the same
integer as a `Nat`). -/
def KaitaiStream.readU8le (s : KaitaiStream) : Except KError (Nat × KaitaiStream) :=
  ensuredRead 8 (fun t => t.uleVal 8) s

/-- `readU8be()`. -/
def KaitaiStream.readU8be (s : KaitaiStream) : Except KError (Nat × KaitaiStream) :=
  ensuredRead 8 (fun t => t.ubeVal 8) s

/-- `readS1()`. -/
def KaitaiStream.readS1 (s : KaitaiStream) : Except KError (Int × KaitaiStream) :=
  ensuredRead 1 (fun t => toSigned 1 (t.byteAt t.pos)) s

/-- `readS2le()`. -/
def KaitaiStream.readS2le (s : KaitaiStream) : Except KError (Int × KaitaiStream) :=
  ensuredRead 2 (fun t => toSigned 2 (t.uleVal 2)) s

/-- `readS2be()`. -/
def KaitaiStream.readS2be (s : KaitaiStream) : Except KError (Int × KaitaiStream) :=
  ensuredRead 2 (fun t => toSigned 2 (t.ubeVal 2)) s

/-- `readS4le()`. -/
def KaitaiStream.readS4le (s : KaitaiStream) : Except KError (Int × KaitaiStream) :=
  ensuredRead 4 (fun t => toSigned 4 (t.uleVal 4)) s

/-- `readS4be()`. -/
def KaitaiStream.readS4be (s : KaitaiStream) : Except KError (Int × KaitaiStream) :=
  ensuredRead 4 (fun t => toSigned 4 (t.ubeVal 4)) s

/-- `readS8le()`. -/
def KaitaiStream.readS8le (s : KaitaiStream) : Except KError (Int × KaitaiStream) :=
  ensuredRead 8 (fun t => toSigned 8 (t.uleVal 8)) s

/-- `readS8be()`. -/
def KaitaiStream.readS8be (s : KaitaiStream) : Except KError (Int × KaitaiStream) :=
  ensuredRead 8 (fun t => toSigned 8 (t.ubeVal 8)) s

/-- `readF4le()`: the model keeps the raw 4-byte little-endian pattern
(IEEE-754 decoding is external; position/error behaviour is exact). -/
def KaitaiStream.readF4le (s : KaitaiStream) : Except KError (Nat × KaitaiStream) :=
  ensuredRead 4 (fun t => t.uleVal 4) s

/-- `readF4be()`: raw pattern, as for `readF4le`. -/
def KaitaiStream.readF4be (s : KaitaiStream) : Except KError (Nat × KaitaiStream) :=
  ensuredRead 4 (fun t => t.ubeVal 4) s

/-- `readF8le()`: raw pattern, as for `readF4le`. -/
def KaitaiStream.readF8le (s : KaitaiStream) : Except KError (Nat × KaitaiStream) :=
  ensuredRead 8 (fun t => t.uleVal 8) s

/-- `readF8be()`: raw pattern, as for `readF4le`. -/
def KaitaiStream.readF8be (s : KaitaiStream) : Except KError (Nat × KaitaiStream) :=
  ensuredRead 8 (fun t => t.ubeVal 8) s

/-- `readBytes(length)`: `ensureBytes`, `buffer.slice(pos, pos+length)`,
advance by `length`. -/
def KaitaiStream.readBytes (s : KaitaiStream) (len : Nat) :
    Except KError (List Nat × KaitaiStream) :=
  ensuredRead len (fun t => (t.buffer.drop t.pos).take len) s

/-- `readBytesFull()`: all remaining bytes; sets `_pos` to the buffer
length directly (never fails, does not touch the bit accumulator). -/
def KaitaiStream.readBytesFull (s : KaitaiStream) : List Nat × KaitaiStream :=
  (s.buffer.drop s.pos, { s with pos := s.buffer.length })

/-- `substream(size)`: `ensureBytes`, carve `buffer.slice(pos, pos+size)`
into a fresh stream (position 0, empty bit accumulator), advance the
parent by `size`. -/
def KaitaiStream.substream (s : KaitaiStream) (sz : Nat) :
    Except KError (KaitaiStream × KaitaiStream) :=
  match s.ensureBytes sz with
  | .error e => .error e
  | .ok _ => .ok (⟨(s.buffer.drop s.pos).take sz, 0, 0, 0⟩, { s with pos := s.pos + sz })

/-- Scan loop of `readBytesterm`: starting at `start`, the first index
holding `term`, or the buffer length when `term` does not occur (the
`while` loop of the source expressed as a first-index scan over the
suffix). -/
def KaitaiStream.findTermEnd (buffer : List Nat) (term start : Nat) : Nat :=
  start + (buffer.drop start).findIdx (fun b => b == term)

/-- `readBytesterm(term, include, consume, eosError)` from the source:
scan for the terminator, fail with `EOFError` at the pre-read position
when absent and `eosError` is set, otherwise slice
`buffer.slice(start, includeEnd)` and set `_pos` past the terminator when
it was found and `consume` is set, else to the scan end. -/
def KaitaiStream.readBytesterm (s : KaitaiStream) (term : Nat)
    (inc consume eosError : Bool) : Except KError (List Nat × KaitaiStream) :=
  let start := s.pos
  let e := findTermEnd s.buffer term start
  let foundTerm : Bool := decide (e < s.buffer.length)
  if !foundTerm && eosError then
    .error (.eof s.pos)
  else
    let includeEnd := if inc && foundTerm then e + 1 else e
    let bytes := (s.buffer.take includeEnd).drop start
    let pos' := if foundTerm && consume then e + 1 else e
    .ok (bytes, { s with pos := pos' })

/-- Text decoding (src/utils/encoding.ts): the host decoders are external
collaborators; the model maps each byte to its code point (exact for
Latin-1 range data, and no claim depends on decoded text). -/
def decodeString (bytes : List Nat) (_encoding : String) : String :=
  String.mk (bytes.map Char.ofNat)

/-- `readStr(length, encoding)`: `readBytes` then decode. -/
def KaitaiStream.readStr (s : KaitaiStream) (len : Nat) (encoding : String) :
    Except KError (String × KaitaiStream) :=
  match s.readBytes len with
  | .error e => .error e
  | .ok (bytes, s1) => .ok (decodeString bytes encoding, s1)

/-- `alignToByte()`: discard the remaining accumulator bits. -/
def KaitaiStream.alignToByte (s : KaitaiStream) : KaitaiStream :=
  { s with bitsLeft := 0 }

/-- Body of the `readBitsIntBe` loop: when the accumulator is empty load a
fresh byte through `readU1` (which advances `_pos`), then take
`min bitsNeeded bitsLeft` bits from the top of the accumulator.  Each pass
consumes at least one bit, so `fuel := n` bounds the loop of the source;
`outOfFuel` is unreachable from `readBitsIntBe`. -/
def KaitaiStream.readBitsIntBeLoop (fuel bitsNeeded result : Nat)
    (s : KaitaiStream) : Except KError (Nat × KaitaiStream) :=
  if bitsNeeded = 0 then .ok (result, s)
  else
    match fuel with
    | 0 => .error .outOfFuel
    | f + 1 =>
      let loaded : Except KError KaitaiStream :=
        if s.bitsLeft = 0 then
          match s.readU1 with
          | .error e => .error e
          | .ok (b, s1) => .ok { s1 with bits := b, bitsLeft := 8 }
        else .ok s
      match loaded with
      | .error e => .error e
      | .ok t =>
        let bitsToRead := min bitsNeeded t.bitsLeft
        let mask := 2 ^ bitsToRead - 1
        let shift := t.bitsLeft - bitsToRead
        readBitsIntBeLoop f (bitsNeeded - bitsToRead)
          ((result <<< bitsToRead) ||| ((t.bits >>> shift) &&& mask))
          { t with bitsLeft := t.bitsLeft - bitsToRead }

/-- `readBitsIntBe(n)`: reject `n` outside 1..64 with a plain `Error`,
then run the accumulator loop. -/
def KaitaiStream.readBitsIntBe (s : KaitaiStream) (n : Nat) :
    Except KError (Nat × KaitaiStream) :=
  if n < 1 ∨ n > 64 then .error (.jsError "Invalid bit count")
  else readBitsIntBeLoop n n 0 s

/-- Success/failure contract asserted by claim C1 for a typed read of
width `w`: enough bytes means success with the position advanced by
exactly `w`; too few means an `EOFError` carrying the pre-read position
(the pure embedding returns no stream in that case — the TypeScript
method throws before mutating, leaving the position unchanged). -/
def ReadContract {α : Type} (f : KaitaiStream → Except KError (α × KaitaiStream))
    (w : Nat) : Prop :=
  ∀ s : KaitaiStream,
    (s.pos + w ≤ s.buffer.length →
      ∃ v s', f s = .ok (v, s') ∧ s'.pos = s.pos + w) ∧
    (s.buffer.length < s.pos + w → f s = .error (.eof s.pos))

theorem ensuredRead_ok {α : Type} (w : Nat) (val : KaitaiStream → α)
    (s : KaitaiStream) (h : s.pos + w ≤ s.buffer.length) :
    KaitaiStream.ensuredRead w val s = .ok (val s, { s with pos := s.pos + w }) := by
  unfold KaitaiStream.ensuredRead KaitaiStream.ensureBytes
  rw [if_neg (by omega)]

theorem ensuredRead_err {α : Type} (w : Nat) (val : KaitaiStream → α)
    (s : KaitaiStream) (h : s.buffer.length < s.pos + w) :
    KaitaiStream.ensuredRead w val s = .error (.eof s.pos) := by
  unfold KaitaiStream.ensuredRead KaitaiStream.ensureBytes
  rw [if_pos (by omega)]

theorem ensuredRead_contract {α : Type} (w : Nat) (val : KaitaiStream → α) :
    ReadContract (KaitaiStream.ensuredRead w val) w := by
  intro s
  exact ⟨fun h => ⟨val s, _, ensuredRead_ok w val s h, rfl⟩,
         fun h => ensuredRead_err w val s h⟩

/-- Claim C1: every typed read of width w (readU1, readU2le/be, readU4le/be,
readU8le/be, readS1, readS2le/be, readS4le/be, readS8le/be, readF4le/be,
readF8le/be, readBytes(w)) succeeds with the new position equal to the old
position plus w whenever pos + w fits the stream size, and otherwise fails
with an end-of-stream `EOFError` carrying the pre-read position while
leaving the stream unchanged. -/
theorem c1_typed_reads :
    ReadContract KaitaiStream.readU1 1 ∧
    ReadContract KaitaiStream.readU2le 2 ∧ ReadContract KaitaiStream.readU2be 2 ∧
    ReadContract KaitaiStream.readU4le 4 ∧ ReadContract KaitaiStream.readU4be 4 ∧
    ReadContract KaitaiStream.readU8le 8 ∧ ReadContract KaitaiStream.readU8be 8 ∧
    ReadContract KaitaiStream.readS1 1 ∧
    ReadContract KaitaiStream.readS2le 2 ∧ ReadContract KaitaiStream.readS2be 2 ∧
    ReadContract KaitaiStream.readS4le 4 ∧ ReadContract KaitaiStream.readS4be 4 ∧
    ReadContract KaitaiStream.readS8le 8 ∧ ReadContract KaitaiStream.readS8be 8 ∧
    ReadContract KaitaiStream.readF4le 4 ∧ ReadContract KaitaiStream.readF4be 4 ∧
    ReadContract KaitaiStream.readF8le 8 ∧ ReadContract KaitaiStream.readF8be 8 ∧
    (∀ n : Nat, ReadContract (fun s => s.readBytes n) n) :=
  ⟨ensuredRead_contract 1 _,
   ensuredRead_contract 2 _, ensuredRead_contract 2 _,
   ensuredRead_contract 4 _, ensuredRead_contract 4 _,
   ensuredRead_contract 8 _, ensuredRead_contract 8 _,
   ensuredRead_contract 1 _,
   ensuredRead_contract 2 _, ensuredRead_contract 2 _,
   ensuredRead_contract 4 _, ensuredRead_contract 4 _,
   ensuredRead_contract 8 _, ensuredRead_contract 8 _,
   ensuredRead_contract 4 _, ensuredRead_contract 4 _,
   ensuredRead_contract 8 _, ensuredRead_contract 8 _,
   fun n => ensuredRead_contract n _⟩

/-- Witness for C1: `readU4le` on a 5-byte stream succeeds advancing the
position from 0 to 4, and `readU2le` positioned at the last byte fails
with an `EOFError` carrying position 2. -/
theorem c1_typed_reads_witness :
    (∃ v s', KaitaiStream.readU4le ⟨[1, 2, 3, 4, 5], 0, 0, 0⟩ = .ok (v, s') ∧
      s'.pos = 0 + 4) ∧
    KaitaiStream.readU2le ⟨[1, 2, 3], 2, 0, 0⟩ = .error (.eof 2) :=
  ⟨(c1_typed_reads.2.2.2.1 ⟨[1, 2, 3, 4, 5], 0, 0, 0⟩).1 (by decide),
   (c1_typed_reads.2.1 ⟨[1, 2, 3], 2, 0, 0⟩).2 (by decide)⟩

theorem findIdx_first_spec (p : Nat → Bool) (l : List Nat) :
    l.findIdx p ≤ l.length ∧
    (∀ j, j < l.findIdx p → p (l.getD j 0) = false) ∧
    (l.findIdx p < l.length → p (l.getD (l.findIdx p) 0) = true) := by
  induction l with
  | nil => simp
  | cons a t ih =>
    rcases ih with ⟨ih1, ih2, ih3⟩
    by_cases h : p a = true
    · simp [List.findIdx_cons, h]
    · have hf : p a = false := by simpa using h
      refine ⟨?_, ?_, ?_⟩
      · simp only [List.findIdx_cons, hf, cond_false, List.length_cons]
        omega
      · intro j hj
        simp only [List.findIdx_cons, hf, cond_false] at hj
        match j with
        | 0 => simpa using hf
        | j' + 1 =>
          rw [List.getD_cons_succ]
          exact ih2 j' (by omega)
      · intro hlt
        simp only [List.findIdx_cons, hf, cond_false, List.length_cons] at hlt ⊢
        rw [List.getD_cons_succ]
        exact ih3 (by omega)

theorem getD_drop_spec (i : Nat) (l : List Nat) (j : Nat) :
    (l.drop i).getD j 0 = l.getD (i + j) 0 := by
  induction i generalizing l with
  | zero => simp
  | succ i ih =>
    match l with
    | [] => simp
    | a :: t =>
      rw [List.drop_succ_cons, ih t, Nat.succ_add, List.getD_cons_succ]

theorem findTermEnd_spec (buffer : List Nat) (term start : Nat)
    (hs : start ≤ buffer.length) :
    start ≤ KaitaiStream.findTermEnd buffer term start ∧
    KaitaiStream.findTermEnd buffer term start ≤ buffer.length ∧
    (∀ j, start ≤ j → j < KaitaiStream.findTermEnd buffer term start →
      buffer.getD j 0 ≠ term) ∧
    (KaitaiStream.findTermEnd buffer term start < buffer.length →
      buffer.getD (KaitaiStream.findTermEnd buffer term start) 0 = term) := by
  obtain ⟨h1, h2, h3⟩ := findIdx_first_spec (fun b => b == term) (buffer.drop start)
  rw [List.length_drop] at h1
  unfold KaitaiStream.findTermEnd
  refine ⟨by omega, by omega, ?_, ?_⟩
  · intro j hj1 hj2 heq
    have hb := h2 (j - start) (by omega)
    rw [getD_drop_spec, Nat.add_sub_cancel' hj1] at hb
    rw [heq] at hb
    simp at hb
  · intro hlt
    have hidx : (buffer.drop start).findIdx (fun b => b == term) <
        (buffer.drop start).length := by
      rw [List.length_drop]; omega
    have hb := h3 hidx
    rw [getD_drop_spec] at hb
    simpa using hb

/-- Claim C5: a terminated byte read with parameters (term, include,
consume, eosError) starting at `start = pos` on a stream of size N returns
the slice B[start..end) — where `end` is the first index at or past
`start` holding the terminator, or N when the terminator never occurs —
extended by the terminator byte exactly when include is set and the
terminator was found; the final position is end+1 when the terminator was
found and consume is set, else end; and the read fails with end-of-stream
at the pre-read position exactly when the terminator is absent and
eosError is set (in particular with the terminator absent and
eosError = false it returns all remaining bytes and ends at N). -/
theorem c5_readBytesterm (s : KaitaiStream) (term : Nat)
    (inc consume eosError : Bool) (hpos : s.pos ≤ s.buffer.length) :
    ∃ e, s.pos ≤ e ∧ e ≤ s.buffer.length ∧
      (∀ j, s.pos ≤ j → j < e → s.buffer.getD j 0 ≠ term) ∧
      (e < s.buffer.length → s.buffer.getD e 0 = term) ∧
      ((e < s.buffer.length ∨ eosError = false) →
        s.readBytesterm term inc consume eosError =
          .ok ((s.buffer.take (if inc && decide (e < s.buffer.length) then e + 1 else e)).drop s.pos,
            { s with pos := if decide (e < s.buffer.length) && consume then e + 1 else e })) ∧
      (e = s.buffer.length → eosError = true →
        s.readBytesterm term inc consume eosError = .error (.eof s.pos)) := by
  obtain ⟨h1, h2, h3, h4⟩ := findTermEnd_spec s.buffer term s.pos hpos
  refine ⟨KaitaiStream.findTermEnd s.buffer term s.pos, h1, h2, h3, h4, ?_, ?_⟩
  · intro hok
    unfold KaitaiStream.readBytesterm
    have hcond : (!decide (KaitaiStream.findTermEnd s.buffer term s.pos <
        s.buffer.length) && eosError) = false := by
      rcases hok with hlt | heos
      · simp [hlt]
      · simp [heos]
    rw [if_neg (by simp [hcond])]
  · intro he heos
    unfold KaitaiStream.readBytesterm
    rw [if_pos (by simp [he, heos])]

/-- Witness for C5: on bytes [5, 0, 7] with terminator 0 (include = false,
consume = true, eosError = true) the characterization applies at position
0. -/
theorem c5_readBytesterm_witness :
    ∃ e, (0 : Nat) ≤ e ∧ e ≤ [5, 0, 7].length ∧
      (∀ j, 0 ≤ j → j < e → [5, 0, 7].getD j 0 ≠ 0) ∧
      (e < [5, 0, 7].length → [5, 0, 7].getD e 0 = 0) ∧
      ((e < [5, 0, 7].length ∨ true = false) →
        KaitaiStream.readBytesterm ⟨[5, 0, 7], 0, 0, 0⟩ 0 false true true =
          .ok (([5, 0, 7].take (if false && decide (e < [5, 0, 7].length) then e + 1 else e)).drop 0,
            { buffer := [5, 0, 7], pos := if decide (e < [5, 0, 7].length) && true then e + 1 else e,
              bits := 0, bitsLeft := 0 })) ∧
      (e = [5, 0, 7].length → true = true →
        KaitaiStream.readBytesterm ⟨[5, 0, 7], 0, 0, 0⟩ 0 false true true =
          .error (.eof 0)) :=
  c5_readBytesterm ⟨[5, 0, 7], 0, 0, 0⟩ 0 false true true (by decide)

/-- Counterexample to claim C7: after a 3-bit read on bytes [255, 0, 0]
the accumulator holds 5 stale bits; `readU1` succeeds but leaves
`bitsLeft = 5` (the claim asserts it resets it to 0), and the following
5-bit read consumes the stale accumulator bits of the first byte
(returning 31) instead of loading the fresh byte 0 at the current
position. -/
theorem c7_counterexample :
    KaitaiStream.readBitsIntBe ⟨[255, 0, 0], 0, 0, 0⟩ 3 =
      .ok (7, ⟨[255, 0, 0], 1, 255, 5⟩) ∧
    KaitaiStream.readU1 ⟨[255, 0, 0], 1, 255, 5⟩ =
      .ok (0, ⟨[255, 0, 0], 2, 255, 5⟩) ∧
    (⟨[255, 0, 0], 2, 255, 5⟩ : KaitaiStream).bitsLeft ≠ 0 ∧
    KaitaiStream.readBitsIntBe ⟨[255, 0, 0], 2, 255, 5⟩ 5 =
      .ok (31, ⟨[255, 0, 0], 2, 255, 0⟩) :=
  ⟨rfl, rfl, by decide, rfl⟩

/-- Preservation contract for the amended claim C7: a successful run of
`f` leaves `bitsLeft` exactly as it was. -/
def PreservesBits {α : Type} (f : KaitaiStream → Except KError (α × KaitaiStream)) : Prop :=
  ∀ s v s', f s = .ok (v, s') → s'.bitsLeft = s.bitsLeft

theorem ensuredRead_bits {α : Type} (w : Nat) (val : KaitaiStream → α) :
    PreservesBits (KaitaiStream.ensuredRead w val) := by
  intro s v s' h
  unfold KaitaiStream.ensuredRead KaitaiStream.ensureBytes at h
  by_cases hb : s.pos + w > s.buffer.length
  · rw [if_pos hb] at h
    exact absurd h (by simp)
  · rw [if_neg hb] at h
    simp only [Except.ok.injEq, Prod.mk.injEq] at h
    rw [← h.2]

/-- Amended claim C7: non-bit typed reads do not touch the bit
accumulator — every fixed-width read, `readBytes`, `readBytesFull` and
`readBytesterm` leave `bits_remaining` unchanged on success.  Only the
`pos` setter (hence `seek`) and `alignToByte` reset it to 0; consequently
a bit read that follows bit reads and a non-bit read resumes from the
stale accumulator rather than at a byte boundary (see the
counterexample). -/
theorem c7_nonbit_reads_bits :
    PreservesBits KaitaiStream.readU1 ∧
    PreservesBits KaitaiStream.readU2le ∧ PreservesBits KaitaiStream.readU2be ∧
    PreservesBits KaitaiStream.readU4le ∧ PreservesBits KaitaiStream.readU4be ∧
    PreservesBits KaitaiStream.readU8le ∧ PreservesBits KaitaiStream.readU8be ∧
    PreservesBits KaitaiStream.readS1 ∧
    PreservesBits KaitaiStream.readS2le ∧ PreservesBits KaitaiStream.readS2be ∧
    PreservesBits KaitaiStream.readS4le ∧ PreservesBits KaitaiStream.readS4be ∧
    PreservesBits KaitaiStream.readS8le ∧ PreservesBits KaitaiStream.readS8be ∧
    PreservesBits KaitaiStream.readF4le ∧ PreservesBits KaitaiStream.readF4be ∧
    PreservesBits KaitaiStream.readF8le ∧ PreservesBits KaitaiStream.readF8be ∧
    (∀ n : Nat, PreservesBits (fun s => s.readBytes n)) ∧
    (∀ s : KaitaiStream, s.readBytesFull.2.bitsLeft = s.bitsLeft) ∧
    (∀ s term inc consume eosError bs s',
      KaitaiStream.readBytesterm s term inc consume eosError = .ok (bs, s') →
      s'.bitsLeft = s.bitsLeft) ∧
    (∀ (s : KaitaiStream) (p : Int) s', s.seek p = .ok s' → s'.bitsLeft = 0) ∧
    (∀ s : KaitaiStream, s.alignToByte.bitsLeft = 0) := by
  refine ⟨ensuredRead_bits 1 _,
    ensuredRead_bits 2 _, ensuredRead_bits 2 _,
    ensuredRead_bits 4 _, ensuredRead_bits 4 _,
    ensuredRead_bits 8 _, ensuredRead_bits 8 _,
    ensuredRead_bits 1 _,
    ensuredRead_bits 2 _, ensuredRead_bits 2 _,
    ensuredRead_bits 4 _, ensuredRead_bits 4 _,
    ensuredRead_bits 8 _, ensuredRead_bits 8 _,
    ensuredRead_bits 4 _, ensuredRead_bits 4 _,
    ensuredRead_bits 8 _, ensuredRead_bits 8 _,
    fun n => ensuredRead_bits n _,
    fun s => rfl, ?_, ?_, fun s => rfl⟩
  · intro s term inc consume eosError bs s' h
    unfold KaitaiStream.readBytesterm at h
    by_cases hc : (!decide (KaitaiStream.findTermEnd s.buffer term s.pos <
        s.buffer.length) && eosError) = true
    · rw [if_pos hc] at h
      exact absurd h (by simp)
    · rw [if_neg hc] at h
      simp only [Except.ok.injEq, Prod.mk.injEq] at h
      rw [← h.2]
  · intro s p s' h
    unfold KaitaiStream.seek at h
    by_cases hc : p < 0 ∨ p > (s.buffer.length : Int)
    · rw [if_pos hc] at h
      exact absurd h (by simp)
    · rw [if_neg hc] at h
      simp only [Except.ok.injEq] at h
      rw [← h]
      rfl

/-- Witness for the amended claim C7: `readU1` on a stream carrying 5
stale accumulator bits succeeds and keeps `bitsLeft = 5`. -/
theorem c7_nonbit_reads_bits_witness :
    (⟨[9, 8], 1, 255, 5⟩ : KaitaiStream).bitsLeft =
      (⟨[9, 8], 0, 255, 5⟩ : KaitaiStream).bitsLeft :=
  c7_nonbit_reads_bits.1 ⟨[9, 8], 0, 255, 5⟩ 9 ⟨[9, 8], 1, 255, 5⟩ rfl

/-- Claim C10: `seek(p)` with 0 ≤ p ≤ N sets the position to p and clears
the bit accumulator (`bitsLeft := 0`); for p < 0 or p > N it fails with a
plain JavaScript `Error` — never the `EOFError` end-of-stream kind — and,
the throw occurring before any mutation, the stream is unchanged (the
pure embedding returns no stream in the error case). -/
theorem c10_seek (s : KaitaiStream) (p : Int) :
    (0 ≤ p → p ≤ (s.buffer.length : Int) →
      s.seek p = .ok { s with pos := p.toNat, bitsLeft := 0 }) ∧
    (p < 0 ∨ (s.buffer.length : Int) < p →
      s.seek p = .error (.jsError "Invalid seek position") ∧
      ∀ q, s.seek p ≠ .error (.eof q)) := by
  constructor
  · intro h0 hN
    unfold KaitaiStream.seek KaitaiStream.setPos
    rw [if_neg (by omega)]
  · intro hbad
    have he : s.seek p = .error (.jsError "Invalid seek position") := by
      unfold KaitaiStream.seek
      rw [if_pos (by omega)]
    refine ⟨he, ?_⟩
    intro q hq
    rw [he] at hq
    simp at hq

/-- Witness for C10: on a 2-byte stream positioned at 5 with stale
accumulator bits, `seek 1` succeeds (position 1, accumulator cleared) and
`seek 5` fails with the plain error. -/
theorem c10_seek_witness :
    KaitaiStream.seek ⟨[1, 2], 5, 3, 4⟩ 1 = .ok ⟨[1, 2], 1, 3, 0⟩ ∧
    KaitaiStream.seek ⟨[1, 2], 5, 3, 4⟩ 5 = .error (.jsError "Invalid seek position") ∧
    ∀ q, KaitaiStream.seek ⟨[1, 2], 5, 3, 4⟩ 5 ≠ .error (.eof q) :=
  ⟨(c10_seek ⟨[1, 2], 5, 3, 4⟩ 1).1 (by decide) (by decide),
   ((c10_seek ⟨[1, 2], 5, 3, 4⟩ 5).2 (by right; decide)).1,
   ((c10_seek ⟨[1, 2], 5, 3, 4⟩ 5).2 (by right; decide)).2⟩

/-- Dynamic values of the interpreter and evaluator (the TypeScript
`unknown`): JavaScript numbers are modelled as integers (see the header),
`bigintV` is a BigInt, `bytes` a `Uint8Array`, `arr` a JavaScript array,
`obj` a plain object as its insertion-ordered field list.  `ioRef` stands
for the `KaitaiStream` object surfaced by `_io` and `rootRef` for the
in-progress root object surfaced by `_root` (both are opaquely aliased
host objects; no claim inspects them). -/
inductive Value where
  | num (n : Int)
  | bigintV (n : Int)
  | str (s : String)
  | bool (b : Bool)
  | null
  | undef
  | bytes (bs : List Nat)
  | arr (vs : List Value)
  | obj (fields : List (String × Value))
  | ioRef
  | rootRef
deriving Repr

/-- Expression AST (src/expression/AST.ts): literals, identifiers, binary
and unary operators (operator names as strings, as in the source), ternary,
member access, index access, method calls and `Enum::member` access.  The
textual expression parser is an external collaborator; schemas in this
development carry already-parsed ASTs. -/
inductive Expr where
  | lit (v : Value)
  | ident (name : String)
  | binop (op : String) (l r : Expr)
  | unop (op : String) (e : Expr)
  | ternary (c t f : Expr)
  | member (o : Expr) (property : String)
  | indexAccess (o : Expr) (idx : Expr)
  | methodCall (o : Expr) (method : String) (args : List Expr)
  | enumAccess (enumName member : String)
deriving Repr

mutual

/-- `String(value)` (JavaScript string conversion), used by `+` on
strings, by `to_s`, and by the switch-type case lookup: numbers and
BigInts render in decimal, arrays join their elements with commas
(nullish elements render empty), objects render "[object Object]". -/
def jsToString : Value → String
  | .num n => toString n
  | .bigintV n => toString n
  | .str s => s
  | .bool b => if b then "true" else "false"
  | .null => "null"
  | .undef => "undefined"
  | .bytes bs => String.intercalate "," (bs.map (fun b => toString b))
  | .arr vs => jsToStringList vs
  | .obj _ => "[object Object]"
  | .ioRef => "[object Object]"
  | .rootRef => "[object Object]"

def jsToStringList : List Value → String
  | [] => ""
  | v :: rest =>
    let head := match v with
      | .null => ""
      | .undef => ""
      | w => jsToString w
    match rest with
    | [] => head
    | _ => head ++ "," ++ jsToStringList rest

end

/-- Property assignment `o[k] = v` on a plain JavaScript object: an
existing (string) key keeps its insertion position, a new key is appended. -/
def setKey (o : List (String × Value)) (k : String) (v : Value) :
    List (String × Value) :=
  if o.any (fun p => p.1 == k) then
    o.map (fun p => if p.1 == k then (k, v) else p)
  else o ++ [(k, v)]

/-- Execution context (src/interpreter/Context.ts): parent stack, the
current object under construction (aliased with the interpreter result
object; the model threads it explicitly), the enum table, and the root
value.  The stream `_io` is threaded separately next to the context
(the TypeScript context holds a reference to the same mutable stream).
Enum tables are JavaScript objects keyed by integers; `Object.entries`
iterates integer-like keys in ascending order, so each table is its
ascending (key, name) enumeration. -/
structure Context where
  parentStack : List Value
  current : List (String × Value)
  enums : List (String × List (Int × String))
  root : Value

/-- The fresh context of `TypeInterpreter.parse` (`new Context(stream,
result, parent, enums)`): the constructor pushes a non-null parent. -/
def Context.new (parent : Option Value)
    (enums : Option (List (String × List (Int × String)))) : Context :=
  { parentStack := match parent with | some p => [p] | none => []
    current := []
    enums := enums.getD []
    root := .rootRef }

/-- `Context.resolve(name)`: special names first, then the fields of the
current object, then `undefined`. -/
def Context.resolve (ctx : Context) (name : String) : Value :=
  match name with
  | "_io" => .ioRef
  | "_root" => ctx.root
  | "_parent" =>
    match ctx.parentStack.getLast? with
    | some v => v
    | none => .null
  | "_index" => (ctx.current.lookup "_index").getD Value.undef
  | _ => (ctx.current.lookup name).getD Value.undef

/-- `Context.set(name, value)`: assignment on the current object. -/
def Context.set (ctx : Context) (name : String) (v : Value) : Context :=
  { ctx with current := setKey ctx.current name v }

/-- `Context.getEnumValue(enumName, valueName)`: reverse lookup — the
first entry (ascending key order) whose name matches, converted with
`Number(key)` (keys are numeric strings, never NaN). -/
def Context.getEnumValue (ctx : Context) (enumName valueName : String) :
    Option Value :=
  match ctx.enums.lookup enumName with
  | none => none
  | some enumDef =>
    match enumDef.find? (fun p => p.2 == valueName) with
    | some p => some (.num p.1)
    | none => none

/-- `Evaluator.toBoolean`: boolean coercion (also the JavaScript
truthiness test `!condition` of the interpreter — the two coincide on
every modelled value). -/
def toBoolean : Value → Bool
  | .bool b => b
  | .num n => n != 0
  | .bigintV n => n != 0
  | .str s => decide (s.length > 0)
  | .null => false
  | .undef => false
  | _ => true

/-- `Evaluator.toNumber`: numeric coercion; `parseFloat` on strings
produces a float or NaN, outside the integer model. -/
def toNumber : Value → Except KError Int
  | .num n => .ok n
  | .bigintV n => .ok n
  | .bool b => .ok (if b then 1 else 0)
  | .str _ => .error (.notModelled "parseFloat on a string")
  | _ => .error (.parseError "Cannot convert to number")

/-- `Evaluator.toInt`: `Math.floor` composed with `toNumber` (the floor is
the identity on the integer model). -/
def toInt (v : Value) : Except KError Int := toNumber v

/-- `Evaluator.modulo` (Kaitai-style, not remainder): the JavaScript `%`
is the truncated remainder `Int.tmod`; a negative result is shifted up by
the divisor. -/
def Evaluator.modulo (a b : Int) : Int :=
  let result := Int.tmod a b
  if result < 0 then result + b else result

/-- `Evaluator.add`: string concatenation when either side is a string,
numeric addition otherwise. -/
def Evaluator.add (l r : Value) : Except KError Value :=
  match l, r with
  | .str _, _ => .ok (.str (jsToString l ++ jsToString r))
  | _, .str _ => .ok (.str (jsToString l ++ jsToString r))
  | _, _ =>
    match toNumber l, toNumber r with
    | .ok a, .ok b => .ok (.num (a + b))
    | .error e, _ => .error e
    | _, .error e => .error e

/-- `Evaluator.compare`: lexicographic for string pairs, numeric
otherwise. -/
def Evaluator.compare (l r : Value) : Except KError Int :=
  match l, r with
  | .str a, .str b => .ok (if a < b then -1 else if b < a then 1 else 0)
  | _, _ =>
    match toNumber l, toNumber r with
    | .ok a, .ok b => .ok (if a < b then -1 else if b < a then 1 else 0)
    | .error e, _ => .error e
    | _, .error e => .error e

/-- `BigInt(value)` as used by `Evaluator.equals` (throws on
non-convertible values; BigInt of a string is outside the model). -/
def toBigIntJS : Value → Except KError Int
  | .num n => .ok n
  | .bigintV n => .ok n
  | .bool b => .ok (if b then 1 else 0)
  | .str _ => .error (.notModelled "BigInt of a string")
  | _ => .error (.jsError "Cannot convert to BigInt")

/-- Strict equality `===` on non-BigInt operands.  Arrays, byte arrays and
objects compare by reference in JavaScript; the model's composite values
are snapshots of distinct objects and compare false (no claim compares
composites). -/
def strictEq : Value → Value → Bool
  | .num a, .num b => a == b
  | .str a, .str b => a == b
  | .bool a, .bool b => a == b
  | .null, .null => true
  | .undef, .undef => true
  | _, _ => false

/-- `Evaluator.equals`: arbitrary-precision comparison when either side is
a BigInt, strict equality otherwise. -/
def Evaluator.equals (l r : Value) : Except KError Bool :=
  match l, r with
  | .bigintV _, _ | _, .bigintV _ =>
    match toBigIntJS l, toBigIntJS r with
    | .ok a, .ok b => .ok (a == b)
    | .error e, _ => .error e
    | _, .error e => .error e
  | _, _ => .ok (strictEq l r)

/-- `ToInt32` (JavaScript 32-bit signed reinterpretation, applied by the
bitwise operators). -/
def toInt32 (n : Int) : Int :=
  let m := n.emod (2 ^ 32)
  if m ≥ 2 ^ 31 then m - 2 ^ 32 else m

/-- Shift count of the JavaScript shift operators: `ToUint32(rhs) & 31`. -/
def shiftCount32 (n : Int) : Nat := (n.emod (2 ^ 32)).toNat % 32

/-- JavaScript `<<` on numbers. -/
def jsShl (a b : Int) : Int := toInt32 (toInt32 a * 2 ^ shiftCount32 b)

/-- JavaScript `>>` on numbers (arithmetic shift = floored division of the
32-bit value). -/
def jsShr (a b : Int) : Int := Int.fdiv (toInt32 a) (2 ^ shiftCount32 b)

/-- JavaScript `&`, `|`, `^` on numbers via the 32-bit bit patterns. -/
def jsBitop (op : Nat → Nat → Nat) (a b : Int) : Int :=
  toInt32 (Int.ofNat (op (a.emod (2 ^ 32)).toNat (b.emod (2 ^ 32)).toNat))

/-- Operator dispatch of `Evaluator.evaluateBinaryOp`, applied to the two
already-evaluated operand values (the source evaluates both operands
before this switch — `and`/`or` therefore do not short-circuit the
evaluation of the right operand, only the boolean combination). -/
def evalBinary (op : String) (l r : Value) : Except KError Value :=
  match op with
  | "+" => Evaluator.add l r
  | "-" =>
    match toNumber l, toNumber r with
    | .ok a, .ok b => .ok (.num (a - b))
    | .error e, _ => .error e
    | _, .error e => .error e
  | "*" =>
    match toNumber l, toNumber r with
    | .ok a, .ok b => .ok (.num (a * b))
    | .error e, _ => .error e
    | _, .error e => .error e
  | "/" =>
    match toNumber l, toNumber r with
    | .ok a, .ok b =>
      if b ≠ 0 ∧ a.emod b = 0 then .ok (.num (a / b))
      else .error (.notModelled "non-integer float division")
    | .error e, _ => .error e
    | _, .error e => .error e
  | "%" =>
    match toNumber l, toNumber r with
    | .ok a, .ok b =>
      if b = 0 then .error (.notModelled "modulo by zero yields NaN")
      else .ok (.num (Evaluator.modulo a b))
    | .error e, _ => .error e
    | _, .error e => .error e
  | "<" =>
    match Evaluator.compare l r with
    | .ok c => .ok (.bool (c < 0))
    | .error e => .error e
  | "<=" =>
    match Evaluator.compare l r with
    | .ok c => .ok (.bool (c ≤ 0))
    | .error e => .error e
  | ">" =>
    match Evaluator.compare l r with
    | .ok c => .ok (.bool (c > 0))
    | .error e => .error e
  | ">=" =>
    match Evaluator.compare l r with
    | .ok c => .ok (.bool (c ≥ 0))
    | .error e => .error e
  | "==" =>
    match Evaluator.equals l r with
    | .ok b => .ok (.bool b)
    | .error e => .error e
  | "!=" =>
    match Evaluator.equals l r with
    | .ok b => .ok (.bool (!b))
    | .error e => .error e
  | "<<" =>
    match toInt l, toInt r with
    | .ok a, .ok b => .ok (.num (jsShl a b))
    | .error e, _ => .error e
    | _, .error e => .error e
  | ">>" =>
    match toInt l, toInt r with
    | .ok a, .ok b => .ok (.num (jsShr a b))
    | .error e, _ => .error e
    | _, .error e => .error e
  | "&" =>
    match toInt l, toInt r with
    | .ok a, .ok b => .ok (.num (jsBitop Nat.land a b))
    | .error e, _ => .error e
    | _, .error e => .error e
  | "|" =>
    match toInt l, toInt r with
    | .ok a, .ok b => .ok (.num (jsBitop Nat.lor a b))
    | .error e, _ => .error e
    | _, .error e => .error e
  | "^" =>
    match toInt l, toInt r with
    | .ok a, .ok b => .ok (.num (jsBitop Nat.xor a b))
    | .error e, _ => .error e
    | _, .error e => .error e
  | "and" => .ok (.bool (toBoolean l && toBoolean r))
  | "or" => .ok (.bool (toBoolean l || toBoolean r))
  | _ => .error (.parseError ("Unknown binary operator: " ++ op))

/-- `Evaluator.evaluateMemberAccess`: nullish receivers fail; objects look
their property up (array and byte-array `length` included, other missing
properties give `undefined`); primitive receivers fail. -/
def evalMember (objVal : Value) (property : String) : Except KError Value :=
  match objVal with
  | .null => .error (.parseError ("Cannot access property " ++ property ++ " of null/undefined"))
  | .undef => .error (.parseError ("Cannot access property " ++ property ++ " of null/undefined"))
  | .obj fields => .ok ((fields.lookup property).getD .undef)
  | .arr vs => .ok (if property == "length" then .num vs.length else .undef)
  | .bytes bs => .ok (if property == "length" then .num bs.length else .undef)
  | .ioRef => .ok .undef
  | .rootRef => .ok .undef
  | _ => .error (.parseError ("Cannot access property " ++ property ++ " of non-object"))

/-- `Evaluator.evaluateIndexAccess`: integer index into an array or byte
array; out-of-range indexing yields `undefined`. -/
def evalIndex (objVal idxVal : Value) : Except KError Value :=
  match objVal with
  | .arr vs =>
    match toInt idxVal with
    | .ok n => .ok (if h : 0 ≤ n ∧ n.toNat < vs.length then vs.get ⟨n.toNat, h.2⟩ else .undef)
    | .error e => .error e
  | .bytes bs =>
    match toInt idxVal with
    | .ok n => .ok (if 0 ≤ n ∧ n.toNat < bs.length then .num (bs.getD n.toNat 0) else .undef)
    | .error e => .error e
  | _ => .error (.parseError "Index access requires an array")

/-- `Evaluator.evaluateMethodCall` (arguments are currently unused by the
source): `length`/`size`, `to_i`, `to_s`. -/
def evalMethod (objVal : Value) (method : String) : Except KError Value :=
  if method == "length" || method == "size" then
    match objVal with
    | .arr vs => .ok (.num vs.length)
    | .bytes bs => .ok (.num bs.length)
    | .str s => .ok (.num s.length)
    | _ => .error (.parseError ("Object does not have a " ++ method ++ " property"))
  else if method == "to_i" then
    match toInt objVal with
    | .ok n => .ok (.num n)
    | .error e => .error e
  else if method == "to_s" then
    .ok (.str (jsToString objVal))
  else
    .error (.parseError ("Unknown method: " ++ method))

/-- `Evaluator.evaluate`: tree walk over the AST.  Binary operators
evaluate the left then the right operand before dispatching on the
operator; the ternary evaluates only the selected branch. -/
def evaluate : Expr → Context → Except KError Value
  | .lit v, _ => .ok v
  | .ident name, ctx => .ok (ctx.resolve name)
  | .binop op l r, ctx =>
    match evaluate l ctx with
    | .error e => .error e
    | .ok leftVal =>
      match evaluate r ctx with
      | .error e => .error e
      | .ok rightVal => evalBinary op leftVal rightVal
  | .unop op e, ctx =>
    match evaluate e ctx with
    | .error err => .error err
    | .ok v =>
      match op with
      | "-" =>
        match toNumber v with
        | .ok n => .ok (.num (-n))
        | .error err => .error err
      | "not" => .ok (.bool (!toBoolean v))
      | _ => .error (.parseError ("Unknown unary operator: " ++ op))
  | .ternary c t f, ctx =>
    match evaluate c ctx with
    | .error e => .error e
    | .ok cv => if toBoolean cv then evaluate t ctx else evaluate f ctx
  | .member o property, ctx =>
    match evaluate o ctx with
    | .error e => .error e
    | .ok objVal => evalMember objVal property
  | .indexAccess o idx, ctx =>
    match evaluate o ctx with
    | .error e => .error e
    | .ok objVal =>
      match evaluate idx ctx with
      | .error e => .error e
      | .ok idxVal => evalIndex objVal idxVal
  | .methodCall o method _args, ctx =>
    match evaluate o ctx with
    | .error e => .error e
    | .ok objVal => evalMethod objVal method
  | .enumAccess enumName member, ctx =>
    match ctx.getEnumValue enumName member with
    | some v => .ok v
    | none => .error (.parseError ("Enum value " ++ enumName ++ "::" ++ member ++ " not found"))

/-- An empty evaluation context (no parent, no fields, no enums). -/
def emptyCtx : Context := ⟨[], [], [], .rootRef⟩

theorem evaluate_binop_ok (op : String) (l r : Expr) (ctx : Context)
    (vl vr : Value) (hl : evaluate l ctx = .ok vl)
    (hr : evaluate r ctx = .ok vr) :
    evaluate (.binop op l r) ctx = evalBinary op vl vr := by
  simp only [evaluate]
  rw [hl, hr]

theorem evaluate_binop_right_err (op : String) (l r : Expr) (ctx : Context)
    (vl : Value) (e : KError) (hl : evaluate l ctx = .ok vl)
    (hr : evaluate r ctx = .error e) :
    evaluate (.binop op l r) ctx = .error e := by
  simp only [evaluate]
  rw [hl, hr]

/-- Counterexample to claim C3: in `false and foo.bar` the left operand
coerces to false, yet the right operand is still evaluated — `foo`
resolves to `undefined` in the empty context and the member access raises
a parse error, so the whole expression fails instead of yielding false. -/
theorem c3_counterexample :
    evaluate (.binop "and" (.lit (.bool false)) (.member (.ident "foo") "bar"))
        emptyCtx =
      .error (.parseError "Cannot access property bar of null/undefined") ∧
    evaluate (.binop "and" (.lit (.bool false)) (.member (.ident "foo") "bar"))
        emptyCtx ≠ .ok (.bool false) := by
  have he : evaluate (.binop "and" (.lit (.bool false)) (.member (.ident "foo") "bar"))
      emptyCtx =
      .error (.parseError "Cannot access property bar of null/undefined") := rfl
  refine ⟨he, ?_⟩
  intro h
  rw [he] at h
  exact Except.noConfusion h

/-- Amended claim C3: `a and b` and `a or b` evaluate both operands
eagerly (an error from evaluating `b` propagates even when `a` coerces to
false, resp. true); when both operands evaluate, the result is the
conjunction, resp. disjunction, of their boolean coercions — so the
resulting truth value is the one the claim states.  Operands are coerced
with numeric 0 and BigInt 0, the empty string, and nullish values mapping
to false, and everything else to true. -/
theorem c3_logical_and_or (l r : Expr) (ctx : Context) :
    (∀ vl vr, evaluate l ctx = .ok vl → evaluate r ctx = .ok vr →
      evaluate (.binop "and" l r) ctx = .ok (.bool (toBoolean vl && toBoolean vr)) ∧
      evaluate (.binop "or" l r) ctx = .ok (.bool (toBoolean vl || toBoolean vr))) ∧
    (∀ vl e, evaluate l ctx = .ok vl → evaluate r ctx = .error e →
      evaluate (.binop "and" l r) ctx = .error e ∧
      evaluate (.binop "or" l r) ctx = .error e) ∧
    toBoolean (.num 0) = false ∧ toBoolean (.bigintV 0) = false ∧
    toBoolean (.str "") = false ∧ toBoolean .null = false ∧
    toBoolean .undef = false ∧
    (∀ n : Int, n ≠ 0 → toBoolean (.num n) = true) ∧
    (∀ n : Int, n ≠ 0 → toBoolean (.bigintV n) = true) ∧
    (∀ s : String, s ≠ "" → toBoolean (.str s) = true) ∧
    (∀ bs, toBoolean (.bytes bs) = true) ∧
    (∀ fields, toBoolean (.obj fields) = true) := by
  refine ⟨?_, ?_, rfl, rfl, rfl, rfl, rfl, ?_, ?_, ?_, fun bs => rfl, fun fields => rfl⟩
  · intro vl vr hl hr
    exact ⟨evaluate_binop_ok "and" l r ctx vl vr hl hr,
           evaluate_binop_ok "or" l r ctx vl vr hl hr⟩
  · intro vl e hl hr
    exact ⟨evaluate_binop_right_err "and" l r ctx vl e hl hr,
           evaluate_binop_right_err "or" l r ctx vl e hl hr⟩
  · intro n hn
    simp [toBoolean, hn]
  · intro n hn
    simp [toBoolean, hn]
  · intro s hs
    have hd : s.data ≠ [] := fun h => hs (congrArg String.mk h)
    exact decide_eq_true (List.length_pos.mpr hd)

/-- Witness for the amended claim C3: `0 and "x"` yields false and
`0 or "x"` yields true. -/
theorem c3_logical_and_or_witness :
    evaluate (.binop "and" (.lit (.num 0)) (.lit (.str "x"))) emptyCtx =
      .ok (.bool false) ∧
    evaluate (.binop "or" (.lit (.num 0)) (.lit (.str "x"))) emptyCtx =
      .ok (.bool true) := by
  have h := (c3_logical_and_or (.lit (.num 0)) (.lit (.str "x")) emptyCtx).1
    (.num 0) (.str "x") rfl rfl
  exact ⟨h.1, h.2⟩

theorem tmod_bounds (a b : Int) (hb : 0 < b) :
    -b < Int.tmod a b ∧ Int.tmod a b < b := by
  have h1 := Int.tmod_lt_of_pos a hb
  have hneg : Int.tmod (-a) b = -(Int.tmod a b) := by
    have d1 := Int.tdiv_add_tmod a b
    have d2 := Int.tdiv_add_tmod (-a) b
    rw [Int.neg_tdiv, Int.mul_neg] at d2
    omega
  rcases le_or_lt 0 a with ha | ha
  · have h2 := Int.tmod_nonneg b ha
    exact ⟨by omega, h1⟩
  · have h3 := Int.tmod_nonneg b (by omega : (0:Int) ≤ -a)
    have h4 := Int.tmod_lt_of_pos (-a) hb
    rw [hneg] at h3 h4
    exact ⟨by omega, h1⟩

/-- Claim C8: for numeric operands with b > 0, the expression `a % b`
evaluates to the floored (mathematical) modulo — the unique r with
0 ≤ r < b and a = b·q + r — never a negative value, and not the truncated
remainder (the witness shows (-5) % 3 = 1). -/
theorem c8_floored_modulo (a b : Int) (ctx : Context) (hb : 0 < b) :
    evaluate (.binop "%" (.lit (.num a)) (.lit (.num b))) ctx =
      .ok (.num (Evaluator.modulo a b)) ∧
    0 ≤ Evaluator.modulo a b ∧ Evaluator.modulo a b < b ∧
    (∃ q : Int, a = b * q + Evaluator.modulo a b) := by
  obtain ⟨hlo, hhi⟩ := tmod_bounds a b hb
  have heval : evaluate (.binop "%" (.lit (.num a)) (.lit (.num b))) ctx =
      evalBinary "%" (.num a) (.num b) :=
    evaluate_binop_ok "%" _ _ ctx (.num a) (.num b) rfl rfl
  have hred : evalBinary "%" (.num a) (.num b) =
      if b = 0 then .error (.notModelled "modulo by zero yields NaN")
      else .ok (.num (Evaluator.modulo a b)) := rfl
  have d1 := Int.tdiv_add_tmod a b
  refine ⟨by rw [heval, hred, if_neg (by omega)], ?_, ?_, ?_⟩
  · simp only [Evaluator.modulo]
    split <;> omega
  · simp only [Evaluator.modulo]
    split <;> omega
  · by_cases hneg : Int.tmod a b < 0
    · refine ⟨a.tdiv b - 1, ?_⟩
      simp only [Evaluator.modulo]
      rw [if_pos hneg, Int.mul_sub, Int.mul_one]
      omega
    · refine ⟨a.tdiv b, ?_⟩
      simp only [Evaluator.modulo]
      rw [if_neg hneg]
      omega

/-- Witness for C8: (-5) % 3 evaluates to 1 (not the truncated remainder
-2), with 0 ≤ 1 < 3. -/
theorem c8_floored_modulo_witness :
    evaluate (.binop "%" (.lit (.num (-5))) (.lit (.num 3))) emptyCtx =
      .ok (.num 1) ∧ (0 : Int) ≤ 1 ∧ (1 : Int) < 3 := by
  have h := c8_floored_modulo (-5) 3 emptyCtx (by decide)
  have hm : Evaluator.modulo (-5) 3 = 1 := by decide
  exact ⟨by rw [h.1, hm], by decide, by decide⟩

/-- Endianness (src/parser/schema.ts). -/
inductive Endianness where
  | le
  | be
deriving Repr, DecidableEq

/-- The meta fields the interpreter consults: identifier (an empty string
models a missing/falsy id), default endianness — either a string or the
`EndianExpression` object form, the latter not implemented by the
interpreter which then falls back to little-endian — and default
encoding. -/
structure MetaSpec where
  id : String
  endian : Option (Endianness ⊕ Unit) := none
  encoding : Option String := none
deriving Repr

/-- An attribute expression slot (`string | number | boolean` in the
source): numbers and booleans are literals returned as-is by
`evaluateValue`; strings are expressions (the textual expression parser
is an external collaborator, so the model stores the parsed AST). -/
inductive AttrValue where
  | lit (v : Value)
  | expr (e : Expr)
deriving Repr

/-- A switch type: `switch-on` discriminant (a string expression; absent
or non-string fails), the case map, and the optional default type. -/
structure SwitchTypeSpec where
  switchOn : Option Expr := none
  cases : Option (List (String × String)) := none
  defaultType : Option String := none
deriving Repr

/-- A field specification (src/parser/schema.ts `AttributeSpec`), with
the fields the interpreter reads.  `repeatSpec` models `repeat`,
`ifExpr` models `if`, `ioSpec` models `io` (reserved, unimplemented),
`sizeEos` models `size-eos`. -/
structure AttributeSpec where
  id : Option String := none
  type : Option (String ⊕ SwitchTypeSpec) := none
  typeArgs : Option (List AttrValue) := none
  size : Option AttrValue := none
  sizeEos : Bool := false
  repeatSpec : Option String := none
  repeatExpr : Option AttrValue := none
  repeatUntil : Option AttrValue := none
  ifExpr : Option AttrValue := none
  contents : Option (List Nat ⊕ String) := none
  encoding : Option String := none
  enum : Option String := none
  pos : Option AttrValue := none
  ioSpec : Option String := none
deriving Repr

/-- An instance specification: an attribute spec extended with the
`value` form (the `pos` of a pos-instance is the `pos` field of `attr`). -/
structure InstanceSpec where
  value : Option AttrValue := none
  attr : AttributeSpec := {}
deriving Repr

/-- A schema (type definition) tree: meta, sequence, instances, nested
types, enum tables and parameter names.  `none` models an absent
(undefined) section, `some []` a present but empty one — the interpreter
distinguishes the two through JavaScript truthiness. -/
inductive KsySchema where
  | mk (meta : Option MetaSpec)
       (seq : Option (List AttributeSpec))
       (instances : Option (List (String × InstanceSpec)))
       (types : Option (List (String × KsySchema)))
       (enums : Option (List (String × List (Int × String))))
       (params : Option (List String))

def KsySchema.meta : KsySchema → Option MetaSpec
  | .mk m _ _ _ _ _ => m

def KsySchema.seq : KsySchema → Option (List AttributeSpec)
  | .mk _ s _ _ _ _ => s

def KsySchema.instances : KsySchema → Option (List (String × InstanceSpec))
  | .mk _ _ i _ _ _ => i

def KsySchema.types : KsySchema → Option (List (String × KsySchema))
  | .mk _ _ _ t _ _ => t

def KsySchema.enums : KsySchema → Option (List (String × List (Int × String)))
  | .mk _ _ _ _ e _ => e

def KsySchema.params : KsySchema → Option (List String)
  | .mk _ _ _ _ _ p => p

/-- `typeSchema.enums = this.schema.enums` (the inheritance assignment of
`parseType`). -/
def KsySchema.withEnums : KsySchema → Option (List (String × List (Int × String))) → KsySchema
  | .mk m s i t _ p, e => .mk m s i t e p

/-- `typeSchema.types = this.schema.types`. -/
def KsySchema.withTypes : KsySchema → Option (List (String × KsySchema)) → KsySchema
  | .mk m s i _ e p, t => .mk m s i t e p

/-- `BUILTIN_TYPES` (closed set) of src/parser/schema.ts. -/
def BUILTIN_TYPES : List String :=
  ["u1", "u2", "u2le", "u2be", "u4", "u4le", "u4be", "u8", "u8le", "u8be",
   "s1", "s2", "s2le", "s2be", "s4", "s4le", "s4be", "s8", "s8le", "s8be",
   "f4", "f4le", "f4be", "f8", "f8le", "f8be", "str", "strz"]

def isBuiltinType (t : String) : Bool := BUILTIN_TYPES.contains t

/-- `t.endsWith(suffix)` over the character lists (the type names are
ASCII). -/
def strEndsWith (s suffix : String) : Bool :=
  decide (suffix.data.length ≤ s.data.length) &&
    (s.data.drop (s.data.length - suffix.data.length) == suffix.data)

def getTypeEndianness (t : String) : Option Endianness :=
  if strEndsWith t "le" then some .le
  else if strEndsWith t "be" then some .be
  else none

/-- `t.slice(0, -2)` when an endian suffix is present. -/
def getBaseType (t : String) : String :=
  if strEndsWith t "le" || strEndsWith t "be" then
    ⟨t.data.take (t.data.length - 2)⟩
  else t

/-- Regex `^[us][1248]$` on the base type, as an enumeration. -/
def isIntegerType (t : String) : Bool :=
  ["u1", "u2", "u4", "u8", "s1", "s2", "s4", "s8"].contains (getBaseType t)

/-- Regex `^f[48]$` on the base type. -/
def isFloatType (t : String) : Bool :=
  ["f4", "f8"].contains (getBaseType t)

def isStringType (t : String) : Bool := t == "str" || t == "strz"

/-- A `TypeInterpreter` object: the schema it walks and the inherited
parent meta. -/
structure Interp where
  schema : KsySchema
  parentMeta : Option MetaSpec

/-- `new TypeInterpreter(schema, parentMeta)`: a root schema (no parent
meta) must carry a meta section with a (truthy) id. -/
def TypeInterpreter.new (schema : KsySchema) (parentMeta : Option MetaSpec) :
    Except KError Interp :=
  if schema.meta.isNone && parentMeta.isNone then
    .error (.parseError "Schema must have meta section")
  else if (match schema.meta with
           | some m => m.id == ""
           | none => false) && parentMeta.isNone then
    .error (.parseError "Root schema must have meta.id")
  else
    .ok ⟨schema, parentMeta⟩

/-- `TypeInterpreter.evaluateValue`: literal numbers/booleans pass
through, `undefined` passes through, string expressions are evaluated
with failures rethrown as a `ParseError`. -/
def evaluateValue (v : Option AttrValue) (ctx : Context) : Except KError Value :=
  match v with
  | none => .ok .undef
  | some (.lit w) => .ok w
  | some (.expr e) =>
    match evaluate e ctx with
    | .ok w => .ok w
    | .error _ => .error (.parseError "Failed to evaluate expression")

/-- Lift a typed stream read into a `Value`-producing read. -/
def mapVal {α : Type} (f : α → Value) (r : Except KError (α × KaitaiStream)) :
    Except KError (Value × KaitaiStream) :=
  match r with
  | .ok (v, s') => .ok (f v, s')
  | .error e => .error e

/-- `TypeInterpreter.readInteger`: dispatch on the base type and
endianness; u8/s8 surface as BigInt values. -/
def readInteger (base : String) (endian : Endianness) (s : KaitaiStream) :
    Except KError (Value × KaitaiStream) :=
  match base with
  | "u1" => mapVal (fun v => .num (Int.ofNat v)) s.readU1
  | "u2" => mapVal (fun v => .num (Int.ofNat v)) (if endian = .le then s.readU2le else s.readU2be)
  | "u4" => mapVal (fun v => .num (Int.ofNat v)) (if endian = .le then s.readU4le else s.readU4be)
  | "u8" => mapVal (fun v => .bigintV (Int.ofNat v)) (if endian = .le then s.readU8le else s.readU8be)
  | "s1" => mapVal (fun v => .num v) s.readS1
  | "s2" => mapVal (fun v => .num v) (if endian = .le then s.readS2le else s.readS2be)
  | "s4" => mapVal (fun v => .num v) (if endian = .le then s.readS4le else s.readS4be)
  | "s8" => mapVal (fun v => .bigintV v) (if endian = .le then s.readS8le else s.readS8be)
  | _ => .error (.parseError ("Unknown integer type: " ++ base))

/-- `TypeInterpreter.readFloat` (values are the raw bit patterns, see the
header). -/
def readFloat (base : String) (endian : Endianness) (s : KaitaiStream) :
    Except KError (Value × KaitaiStream) :=
  match base with
  | "f4" => mapVal (fun v => .num (Int.ofNat v)) (if endian = .le then s.readF4le else s.readF4be)
  | "f8" => mapVal (fun v => .num (Int.ofNat v)) (if endian = .le then s.readF8le else s.readF8be)
  | _ => .error (.parseError ("Unknown float type: " ++ base))

/-- `TypeInterpreter.parseBuiltinType`: endianness comes from the type
suffix, else from the nearest meta (the expression-based object form is
not implemented and falls back), else defaults to little-endian. -/
def parseBuiltinType (self : Interp) (t : String) (s : KaitaiStream) :
    Except KError (Value × KaitaiStream) :=
  let base := getBaseType t
  let typeEndian := getTypeEndianness t
  let meta := match self.schema.meta with
    | some m => some m
    | none => self.parentMeta
  let metaEndian := meta.bind (fun m => m.endian)
  let endian : Endianness :=
    match typeEndian with
    | some e => e
    | none =>
      match metaEndian with
      | some (.inl e) => e
      | _ => .le
  if isIntegerType t then readInteger base endian s
  else if isFloatType t then readFloat base endian s
  else if isStringType t then
    .error (.parseError "String types require size, size-eos, or terminator")
  else .error (.parseError ("Unknown built-in type: " ++ t))

/-- First index at which the read bytes differ from the expected contents
(the scan of `parseContents`). -/
def firstMismatchIdx (bytes expected : List Nat) : Option Nat :=
  (List.range expected.length).find? (fun i => !(bytes.getD i 0 == expected.getD i 0))

/-- The field-level default encoding chain
`attr.encoding || this.schema.meta.encoding || "UTF-8"`. -/
def encodingOf (self : Interp) (attr : AttributeSpec) : String :=
  ((attr.encoding).orElse (fun _ => self.schema.meta.bind (fun m => m.encoding))).getD "UTF-8"

/-- `TypeInterpreter.parseContents`: read and verify expected contents;
a mismatch raises a `ValidationError` carrying the position of the first
mismatching byte (byte form) or of the string start (string form).  The
second component is the stream state when the error escapes. -/
def parseContents (self : Interp) (attr : AttributeSpec) (s : KaitaiStream) :
    Except KError Value × KaitaiStream :=
  match attr.contents with
  | none => (.error (.parseError "parseContents requires contents"), s)
  | some (.inl expected) =>
    match s.readBytes expected.length with
    | .error e => (.error e, s)
    | .ok (bytes, s1) =>
      match firstMismatchIdx bytes expected with
      | some i => (.error (.validationError "Contents mismatch" (s1.pos - expected.length + i)), s1)
      | none => (.ok (.bytes bytes), s1)
  | some (.inr expected) =>
    match s.readStr expected.length (encodingOf self attr) with
    | .error e => (.error e, s)
    | .ok (str, s1) =>
      if str == expected then (.ok (.str str), s1)
      else (.error (.validationError "Contents mismatch" (s1.pos - expected.length)), s1)

/-- Binding loop of parametric arguments in `TypeInterpreter.parse`
(`for i < params.length && i < typeArgs.length`). -/
def bindParams (params : List String) (args : List AttrValue) (ctx : Context) :
    Except KError Context :=
  match params, args with
  | [], _ => .ok ctx
  | _, [] => .ok ctx
  | p :: ps, a :: rest =>
    match evaluateValue (some a) ctx with
    | .error e => .error e
    | .ok v => bindParams ps rest (ctx.set p v)

/-- The field spec copy with repetition cleared used by the repeat-expr
loop (`{ ...attr, repeat: undefined, "repeat-expr": undefined }`). -/
def clearRepeatExpr (attr : AttributeSpec) : AttributeSpec :=
  { attr with repeatSpec := none, repeatExpr := none }

/-- The copy used by the repeat-until loop. -/
def clearRepeatUntil (attr : AttributeSpec) : AttributeSpec :=
  { attr with repeatSpec := none, repeatUntil := none }

/-- The numeric coercion applied by `parseRepeated` to the count and by
`parseValue` to the size: numbers and BigInts pass through, anything else
becomes 0. -/
def jsIntOrZero (v : Value) : Int :=
  match v with
  | .num n => n
  | .bigintV n => n
  | _ => 0

/-- The `pos` redirect step opening `parseAttribute` (after the `if`
gate): evaluate `attr.pos` and seek; non-numeric positions raise a
`ParseError`. -/
def evalPosStep (attr : AttributeSpec) (stream : KaitaiStream) (ctx : Context) :
    Except KError KaitaiStream :=
  match attr.pos with
  | none => .ok stream
  | some pv =>
    match evaluateValue (some pv) ctx with
    | .error e => .error e
    | .ok (.num n) => stream.seek n
    | .ok (.bigintV n) => stream.seek n
    | .ok _ => .error (.parseError "pos must evaluate to a number")

/-- The nested-type table inheritance of `parseType`: a nested schema
without its own enums (resp. types) receives the enclosing table
(`typeSchema.enums = this.schema.enums`, mutating the schema node in the
source; modelled functionally). -/
def inheritTables (self : Interp) (typeSchema : KsySchema) : KsySchema :=
  let t1 :=
    if self.schema.enums.isSome && typeSchema.enums.isNone then
      typeSchema.withEnums self.schema.enums
    else typeSchema
  if self.schema.types.isSome && t1.types.isNone then
    t1.withTypes self.schema.types
  else t1

/-- Result triple of the stateful interpreter methods: outcome, stream
state and context state (the latter two also meaningful when an
exception escapes, since the TypeScript objects survive a throw). -/
abbrev PR (α : Type) := Except KError α × KaitaiStream × Context

mutual

/-- `TypeInterpreter.parse(stream, parent, typeArgs)`: create a fresh
result object and context over it (the model returns the field list the
source aliases as both `result` and `context.current`), bind parameters,
then parse the sequence in order, storing each value under the field id.
Instances are lazy getters on the result and are not evaluated here (see
`TypeInterpreter.parseInstance`). -/
def TypeInterpreter.parse (fuel : Nat) (self : Interp) (stream : KaitaiStream)
    (parent : Option Value) (typeArgs : Option (List AttrValue)) :
    Except KError (List (String × Value)) × KaitaiStream :=
  match fuel with
  | 0 => (.error .outOfFuel, stream)
  | f + 1 =>
    let ctx0 := Context.new parent self.schema.enums
    let pb : Except KError Context :=
      match typeArgs, self.schema.params with
      | some args, some params => bindParams params args ctx0
      | _, _ => .ok ctx0
    match pb with
    | .error e => (.error e, stream)
    | .ok ctx1 =>
      match TypeInterpreter.parseSeqFields f self (self.schema.seq.getD []) stream ctx1 with
      | (.error e, stream1, _) => (.error e, stream1)
      | (.ok _, stream1, ctx2) => (.ok ctx2.current, stream1)

termination_by structural fuel
/-- The `for (const attr of this.schema.seq)` loop of `parse`: parse each
field and store it on the result object when it has an id. -/
def TypeInterpreter.parseSeqFields (fuel : Nat) (self : Interp)
    (attrs : List AttributeSpec) (stream : KaitaiStream) (ctx : Context) : PR Unit :=
  match fuel with
  | 0 => (.error .outOfFuel, stream, ctx)
  | f + 1 =>
    match attrs with
    | [] => (.ok (), stream, ctx)
    | attr :: rest =>
      match TypeInterpreter.parseAttribute f self attr stream ctx with
      | (.error e, stream1, ctx1) => (.error e, stream1, ctx1)
      | (.ok v, stream1, ctx1) =>
        let ctx2 := match attr.id with
          | some i => { ctx1 with current := setKey ctx1.current i v }
          | none => ctx1
        TypeInterpreter.parseSeqFields f self rest stream1 ctx2

termination_by structural fuel
/-- `TypeInterpreter.parseAttribute` — the `if` gate: a falsy condition
skips the attribute (yielding `undefined`); the rest of the dispatch is
`parseAttributeBody` (one function with early returns in the source,
split at the gate here). -/
def TypeInterpreter.parseAttribute (fuel : Nat) (self : Interp)
    (attr : AttributeSpec) (stream : KaitaiStream) (ctx : Context) : PR Value :=
  match fuel with
  | 0 => (.error .outOfFuel, stream, ctx)
  | f + 1 =>
    match attr.ifExpr with
    | some c =>
      match evaluateValue (some c) ctx with
      | .error e => (.error e, stream, ctx)
      | .ok condV =>
        if !toBoolean condV then (.ok .undef, stream, ctx)
        else TypeInterpreter.parseAttributeBody f self attr stream ctx
    | none => TypeInterpreter.parseAttributeBody f self attr stream ctx

termination_by structural fuel
/-- `parseAttribute` after the gate: `pos` redirect (seek), the reserved
`io` redirect (not implemented), repetition, contents validation, then
the single-value parse.  The enum tag is deliberately not applied — the
read value stays numeric. -/
def TypeInterpreter.parseAttributeBody (fuel : Nat) (self : Interp)
    (attr : AttributeSpec) (stream : KaitaiStream) (ctx : Context) : PR Value :=
  match fuel with
  | 0 => (.error .outOfFuel, stream, ctx)
  | f + 1 =>
    match evalPosStep attr stream ctx with
    | .error e => (.error e, stream, ctx)
    | .ok stream1 =>
      if attr.ioSpec.isSome then
        (.error (.notImplemented "Custom I/O streams"), stream1, ctx)
      else if attr.repeatSpec.isSome then
        TypeInterpreter.parseRepeated f self attr stream1 ctx
      else
        match attr.contents with
        | some _ =>
          match parseContents self attr stream1 with
          | (.error e, stream2) => (.error e, stream2, ctx)
          | (.ok v, stream2) => (.ok v, stream2, ctx)
        | none => TypeInterpreter.parseValue f self attr stream1 ctx

termination_by structural fuel
/-- `TypeInterpreter.parseRepeated`: the three repetition modes. -/
def TypeInterpreter.parseRepeated (fuel : Nat) (self : Interp)
    (attr : AttributeSpec) (stream : KaitaiStream) (ctx : Context) : PR Value :=
  match fuel with
  | 0 => (.error .outOfFuel, stream, ctx)
  | f + 1 =>
    match attr.repeatSpec with
    | some "expr" =>
      match evaluateValue attr.repeatExpr ctx with
      | .error e => (.error e, stream, ctx)
      | .ok countValue =>
        if jsIntOrZero countValue < 0 then
          (.error (.parseError "repeat-expr must be non-negative"), stream, ctx)
        else
          match TypeInterpreter.repeatExprLoop f self attr (jsIntOrZero countValue).toNat 0 [] stream ctx with
          | (.error e, stream1, ctx1) => (.error e, stream1, ctx1)
          | (.ok vs, stream1, ctx1) => (.ok (.arr vs), stream1, ctx1)
    | some "eos" =>
      match TypeInterpreter.repeatEosLoop f self attr [] stream ctx with
      | (.error e, stream1, ctx1) => (.error e, stream1, ctx1)
      | (.ok vs, stream1, ctx1) => (.ok (.arr vs), stream1, ctx1)
    | some "until" =>
      match attr.repeatUntil with
      | none => (.error (.parseError "repeat-until expression is required"), stream, ctx)
      | some _ =>
        match TypeInterpreter.repeatUntilLoop f self attr 0 [] stream ctx with
        | (.error e, stream1, ctx1) => (.error e, stream1, ctx1)
        | (.ok vs, stream1, ctx1) => (.ok (.arr vs), stream1, ctx1)
    | _ => (.error (.parseError "Unknown repeat type"), stream, ctx)

termination_by structural fuel
/-- The repeat-expr loop: set `_index` on the current object, parse the
cleared field spec, collect; `count` iterations in ascending index
order. -/
def TypeInterpreter.repeatExprLoop (fuel : Nat) (self : Interp)
    (attr : AttributeSpec) (count i : Nat) (acc : List Value)
    (stream : KaitaiStream) (ctx : Context) : PR (List Value) :=
  match fuel with
  | 0 => (.error .outOfFuel, stream, ctx)
  | f + 1 =>
    match count with
    | 0 => (.ok acc, stream, ctx)
    | c + 1 =>
      let ctx1 := ctx.set "_index" (.num i)
      match TypeInterpreter.parseAttribute f self (clearRepeatExpr attr) stream ctx1 with
      | (.error e, stream1, ctx2) => (.error e, stream1, ctx2)
      | (.ok v, stream1, ctx2) =>
        TypeInterpreter.repeatExprLoop f self attr c (i + 1) (acc ++ [v]) stream1 ctx2

termination_by structural fuel
/-- The repeat-eos loop: parse values (directly through `parseValue`)
until the stream reports end-of-stream. -/
def TypeInterpreter.repeatEosLoop (fuel : Nat) (self : Interp)
    (attr : AttributeSpec) (acc : List Value)
    (stream : KaitaiStream) (ctx : Context) : PR (List Value) :=
  match fuel with
  | 0 => (.error .outOfFuel, stream, ctx)
  | f + 1 =>
    if stream.isEof then (.ok acc, stream, ctx)
    else
      let ctx1 := ctx.set "_index" (.num acc.length)
      match TypeInterpreter.parseValue f self attr stream ctx1 with
      | (.error e, stream1, ctx2) => (.error e, stream1, ctx2)
      | (.ok v, stream1, ctx2) =>
        TypeInterpreter.repeatEosLoop f self attr (acc ++ [v]) stream1 ctx2

termination_by structural fuel
/-- The repeat-until loop: parse, bind `_` to the element, evaluate the
condition, stop when truthy or at end-of-stream. -/
def TypeInterpreter.repeatUntilLoop (fuel : Nat) (self : Interp)
    (attr : AttributeSpec) (index : Nat) (acc : List Value)
    (stream : KaitaiStream) (ctx : Context) : PR (List Value) :=
  match fuel with
  | 0 => (.error .outOfFuel, stream, ctx)
  | f + 1 =>
    let ctx1 := ctx.set "_index" (.num index)
    match TypeInterpreter.parseAttribute f self (clearRepeatUntil attr) stream ctx1 with
    | (.error e, stream1, ctx2) => (.error e, stream1, ctx2)
    | (.ok v, stream1, ctx2) =>
      let ctx3 := ctx2.set "_" v
      match evaluateValue attr.repeatUntil ctx3 with
      | .error e => (.error e, stream1, ctx3)
      | .ok condV =>
        if toBoolean condV then (.ok (acc ++ [v]), stream1, ctx3)
        else if stream1.isEof then (.ok (acc ++ [v]), stream1, ctx3)
        else TypeInterpreter.repeatUntilLoop f self attr (index + 1) (acc ++ [v]) stream1 ctx3

termination_by structural fuel
/-- `TypeInterpreter.parseValue`: sized reads (string/bytes, or a carved
substream for a complex type), `size-eos` reads, then type dispatch. -/
def TypeInterpreter.parseValue (fuel : Nat) (self : Interp)
    (attr : AttributeSpec) (stream : KaitaiStream) (ctx : Context) : PR Value :=
  match fuel with
  | 0 => (.error .outOfFuel, stream, ctx)
  | f + 1 =>
    match attr.size with
    | some sizev =>
      match evaluateValue (some sizev) ctx with
      | .error e => (.error e, stream, ctx)
      | .ok sizeVal =>
        if jsIntOrZero sizeVal < 0 then (.error (.parseError "size must be non-negative"), stream, ctx)
        else
          match attr.type with
          | some (.inl "str") =>
            match stream.readStr (jsIntOrZero sizeVal).toNat (encodingOf self attr) with
            | .error e => (.error e, stream, ctx)
            | .ok (str, stream1) => (.ok (.str str), stream1, ctx)
          | none =>
            match stream.readBytes (jsIntOrZero sizeVal).toNat with
            | .error e => (.error e, stream, ctx)
            | .ok (bs, stream1) => (.ok (.bytes bs), stream1, ctx)
          | some t =>
            match stream.substream (jsIntOrZero sizeVal).toNat with
            | .error e => (.error e, stream, ctx)
            | .ok (child, parent1) =>
              match TypeInterpreter.parseType f self t child ctx attr.typeArgs with
              | (.error e, _) => (.error e, parent1, ctx)
              | (.ok v, _) => (.ok v, parent1, ctx)
    | none =>
      if attr.sizeEos then
        match attr.type with
        | some (.inl "str") =>
          let r := stream.readBytesFull
          (.ok (.str (decodeString r.1 (encodingOf self attr))), r.2, ctx)
        | _ =>
          let r := stream.readBytesFull
          (.ok (.bytes r.1), r.2, ctx)
      else
        match attr.type with
        | none =>
          (.error (.parseError "Attribute must have either type, size, or contents"), stream, ctx)
        | some t =>
          match TypeInterpreter.parseType f self t stream ctx attr.typeArgs with
          | (r, stream1) => (r, stream1, ctx)

termination_by structural fuel
/-- `TypeInterpreter.parseType`: switch types, built-in types, then
user-defined types — looked up in the schema type table, inheriting the
enclosing enums and types tables when the nested schema lacks its own,
and parsed by a fresh interpreter whose parent object is the current
object. -/
def TypeInterpreter.parseType (fuel : Nat) (self : Interp)
    (t : String ⊕ SwitchTypeSpec) (stream : KaitaiStream) (ctx : Context)
    (typeArgs : Option (List AttrValue)) : Except KError Value × KaitaiStream :=
  match fuel with
  | 0 => (.error .outOfFuel, stream)
  | f + 1 =>
    match t with
    | .inr sw => TypeInterpreter.parseSwitchType f self sw stream ctx
    | .inl name =>
      if isBuiltinType name then
        match parseBuiltinType self name stream with
        | .error e => (.error e, stream)
        | .ok (v, stream1) => (.ok v, stream1)
      else
        match self.schema.types with
        | some ts =>
          match ts.lookup name with
          | some typeSchema =>
            match TypeInterpreter.new (inheritTables self typeSchema)
                (match self.schema.meta with
                 | some m => some m
                 | none => self.parentMeta) with
            | .error e => (.error e, stream)
            | .ok self2 =>
              match TypeInterpreter.parse f self2 stream (some (.obj ctx.current)) typeArgs with
              | (.error e, stream1) => (.error e, stream1)
              | (.ok fields, stream1) => (.ok (.obj fields), stream1)
          | none => (.error (.parseError ("Unknown type: " ++ name)), stream)
        | none => (.error (.parseError ("Unknown type: " ++ name)), stream)

termination_by structural fuel
/-- `TypeInterpreter.parseSwitchType`: require the discriminant and the
case map; evaluate the discriminant, stringify it (`String(value)`), look
the key up in the case map, fall back to the default type, fail when
neither matches, and parse the selected type. -/
def TypeInterpreter.parseSwitchType (fuel : Nat) (self : Interp)
    (sw : SwitchTypeSpec) (stream : KaitaiStream) (ctx : Context) :
    Except KError Value × KaitaiStream :=
  match fuel with
  | 0 => (.error .outOfFuel, stream)
  | f + 1 =>
    match sw.switchOn with
    | none => (.error (.parseError "switch-on expression is required for switch types"), stream)
    | some disc =>
      match sw.cases with
      | none => (.error (.parseError "cases are required for switch types"), stream)
      | some cs =>
        match evaluateValue (some (.expr disc)) ctx with
        | .error e => (.error e, stream)
        | .ok switchValue =>
          let switchKey := jsToString switchValue
          let selected : Option String :=
            match cs.lookup switchKey with
            | some tname => some tname
            | none => sw.defaultType
          match selected with
          | none =>
            (.error (.parseError "No matching case for switch value and no default type specified"), stream)
          | some tname => TypeInterpreter.parseType f self (.inl tname) stream ctx none

termination_by structural fuel
end

/-- The try-block of `TypeInterpreter.parseInstance` for non-value
instances: optional `pos` seek (the pos expression is evaluated here and
again inside `parseAttribute`, as in the source), then the attribute
parse. -/
def TypeInterpreter.parseInstanceBody (fuel : Nat) (self : Interp)
    (inst : InstanceSpec) (stream : KaitaiStream) (ctx : Context) : PR Value :=
  match inst.attr.pos with
  | some pv =>
    match evaluateValue (some pv) ctx with
    | .error e => (.error e, stream, ctx)
    | .ok (.num n) =>
      match stream.seek n with
      | .error e => (.error e, stream, ctx)
      | .ok stream1 => TypeInterpreter.parseAttribute fuel self inst.attr stream1 ctx
    | .ok (.bigintV n) =>
      match stream.seek n with
      | .error e => (.error e, stream, ctx)
      | .ok stream1 => TypeInterpreter.parseAttribute fuel self inst.attr stream1 ctx
    | .ok _ => (.error (.parseError "pos must evaluate to a number"), stream, ctx)
  | none => TypeInterpreter.parseAttribute fuel self inst.attr stream ctx

/-- `TypeInterpreter.parseInstance` (the getter body installed by
`setupInstances` runs this on first access and memoizes): value
instances evaluate their expression with no stream read; otherwise the
position is saved, the body runs, and the `finally` block seeks back to
the saved position — but only when the instance has a `pos` attribute
(`if (instance.pos !== undefined) stream.seek(savedPos)`); a `finally`
failure replaces the body outcome. -/
def TypeInterpreter.parseInstance (fuel : Nat) (self : Interp)
    (inst : InstanceSpec) (stream : KaitaiStream) (ctx : Context) : PR Value :=
  match inst.value with
  | some v =>
    match evaluateValue (some v) ctx with
    | .error e => (.error e, stream, ctx)
    | .ok w => (.ok w, stream, ctx)
  | none =>
    let savedPos := stream.pos
    match TypeInterpreter.parseInstanceBody fuel self inst stream ctx with
    | (r, s1, c1) =>
      match inst.attr.pos with
      | some _ =>
        match s1.seek (savedPos : Int) with
        | .ok s2 => (r, s2, c1)
        | .error e => (.error e, s1, c1)
      | none => (r, s1, c1)

theorem ensuredRead_stream_eq {α : Type} {w : Nat} {val : KaitaiStream → α}
    {s : KaitaiStream} {v : α} {s' : KaitaiStream}
    (h : KaitaiStream.ensuredRead w val s = .ok (v, s')) :
    s' = { s with pos := s.pos + w } := by
  unfold KaitaiStream.ensuredRead KaitaiStream.ensureBytes at h
  by_cases hb : s.pos + w > s.buffer.length
  · rw [if_pos hb] at h
    exact absurd h (by simp)
  · rw [if_neg hb] at h
    simp only [Except.ok.injEq, Prod.mk.injEq] at h
    exact h.2.symm

theorem seek_stream_eq {s : KaitaiStream} {p : Int} {s' : KaitaiStream}
    (h : s.seek p = .ok s') : s' = s.setPos p.toNat := by
  unfold KaitaiStream.seek at h
  by_cases hb : p < 0 ∨ p > (s.buffer.length : Int)
  · rw [if_pos hb] at h
    exact absurd h (by simp)
  · rw [if_neg hb] at h
    simp only [Except.ok.injEq] at h
    exact h.symm

theorem seek_buffer {s : KaitaiStream} {p : Int} {s' : KaitaiStream}
    (h : s.seek p = .ok s') : s'.buffer = s.buffer := by
  rw [seek_stream_eq h]
  rfl

theorem mapVal_ensured_buffer {α : Type} {f : α → Value} {w : Nat}
    {val : KaitaiStream → α} {s : KaitaiStream} {v : Value} {s' : KaitaiStream}
    (h : mapVal f (KaitaiStream.ensuredRead w val s) = .ok (v, s')) :
    s'.buffer = s.buffer := by
  unfold mapVal at h
  cases hr : KaitaiStream.ensuredRead w val s with
  | error e => rw [hr] at h; exact absurd h (by simp)
  | ok p =>
    rw [hr] at h
    obtain ⟨a, s1⟩ := p
    simp only [Except.ok.injEq, Prod.mk.injEq] at h
    rw [← h.2, ensuredRead_stream_eq hr]

theorem readInteger_buffer {base : String} {endian : Endianness}
    {s : KaitaiStream} {v : Value} {s' : KaitaiStream}
    (h : readInteger base endian s = .ok (v, s')) : s'.buffer = s.buffer := by
  unfold readInteger at h
  split at h <;>
    (try split at h) <;>
    (try simp only [KaitaiStream.readU1, KaitaiStream.readU2le, KaitaiStream.readU2be,
      KaitaiStream.readU4le, KaitaiStream.readU4be, KaitaiStream.readU8le,
      KaitaiStream.readU8be, KaitaiStream.readS1, KaitaiStream.readS2le,
      KaitaiStream.readS2be, KaitaiStream.readS4le, KaitaiStream.readS4be,
      KaitaiStream.readS8le, KaitaiStream.readS8be] at h) <;>
    first
      | exact mapVal_ensured_buffer h
      | exact absurd h (by simp)

theorem readFloat_buffer {base : String} {endian : Endianness}
    {s : KaitaiStream} {v : Value} {s' : KaitaiStream}
    (h : readFloat base endian s = .ok (v, s')) : s'.buffer = s.buffer := by
  unfold readFloat at h
  split at h <;>
    (try split at h) <;>
    (try simp only [KaitaiStream.readF4le, KaitaiStream.readF4be,
      KaitaiStream.readF8le, KaitaiStream.readF8be] at h) <;>
    first
      | exact mapVal_ensured_buffer h
      | exact absurd h (by simp)

theorem parseBuiltinType_buffer {self : Interp} {t : String}
    {s : KaitaiStream} {v : Value} {s' : KaitaiStream}
    (h : parseBuiltinType self t s = .ok (v, s')) : s'.buffer = s.buffer := by
  simp only [parseBuiltinType] at h
  split at h
  · exact readInteger_buffer h
  · split at h
    · exact readFloat_buffer h
    · split at h <;> exact absurd h (by simp)

theorem readStr_buffer {s : KaitaiStream} {len : Nat} {enc : String}
    {v : String} {s' : KaitaiStream}
    (h : s.readStr len enc = .ok (v, s')) : s'.buffer = s.buffer := by
  unfold KaitaiStream.readStr at h
  cases hr : s.readBytes len with
  | error e => rw [hr] at h; exact absurd h (by simp)
  | ok p =>
    rw [hr] at h
    obtain ⟨bs, s1⟩ := p
    simp only [Except.ok.injEq, Prod.mk.injEq] at h
    rw [← h.2, ensuredRead_stream_eq hr]

theorem substream_parent_eq {s : KaitaiStream} {sz : Nat}
    {c p : KaitaiStream} (h : s.substream sz = .ok (c, p)) :
    p = { s with pos := s.pos + sz } := by
  unfold KaitaiStream.substream KaitaiStream.ensureBytes at h
  by_cases hb : s.pos + sz > s.buffer.length
  · rw [if_pos hb] at h
    exact absurd h (by simp)
  · rw [if_neg hb] at h
    simp only [Except.ok.injEq, Prod.mk.injEq] at h
    exact h.2.symm

theorem parseContents_buffer (self : Interp) (attr : AttributeSpec)
    (s : KaitaiStream) : (parseContents self attr s).2.buffer = s.buffer := by
  unfold parseContents
  rcases hc : attr.contents with _ | (exp | exp)
  · rfl
  · cases hr : s.readBytes exp.length with
    | error e => simp [hr]
    | ok p =>
      obtain ⟨bs, s1⟩ := p
      have hb : s1.buffer = s.buffer := by rw [ensuredRead_stream_eq hr]
      simp only [hr]
      rcases hm : firstMismatchIdx bs exp with _ | i <;> simpa using hb
  · cases hr : s.readStr exp.length (encodingOf self attr) with
    | error e => simp [hr]
    | ok p =>
      obtain ⟨str, s1⟩ := p
      have hb : s1.buffer = s.buffer := readStr_buffer hr
      simp only [hr]
      split <;> simpa using hb

theorem evalPosStep_buffer {attr : AttributeSpec} {stream : KaitaiStream}
    {ctx : Context} {s1 : KaitaiStream}
    (h : evalPosStep attr stream ctx = .ok s1) : s1.buffer = stream.buffer := by
  unfold evalPosStep at h
  split at h
  · simp only [Except.ok.injEq] at h
    rw [← h]
  · split at h
    · exact absurd h (by simp)
    · exact seek_buffer h
    · exact seek_buffer h
    · exact absurd h (by simp)

/-- Buffer preservation across the interpreter: every interpreter method
leaves the byte buffer of its active stream unchanged, whatever the
outcome (substreams carve fresh buffers, but the stream returned by each
method keeps the buffer it was given). -/
theorem interpBuffers (fuel : Nat) :
    (∀ self stream parent targs,
      (TypeInterpreter.parse fuel self stream parent targs).2.buffer = stream.buffer) ∧
    (∀ self attrs stream ctx,
      (TypeInterpreter.parseSeqFields fuel self attrs stream ctx).2.1.buffer = stream.buffer) ∧
    (∀ self attr stream ctx,
      (TypeInterpreter.parseAttribute fuel self attr stream ctx).2.1.buffer = stream.buffer) ∧
    (∀ self attr stream ctx,
      (TypeInterpreter.parseAttributeBody fuel self attr stream ctx).2.1.buffer = stream.buffer) ∧
    (∀ self attr stream ctx,
      (TypeInterpreter.parseRepeated fuel self attr stream ctx).2.1.buffer = stream.buffer) ∧
    (∀ self attr count i acc stream ctx,
      (TypeInterpreter.repeatExprLoop fuel self attr count i acc stream ctx).2.1.buffer = stream.buffer) ∧
    (∀ self attr acc stream ctx,
      (TypeInterpreter.repeatEosLoop fuel self attr acc stream ctx).2.1.buffer = stream.buffer) ∧
    (∀ self attr index acc stream ctx,
      (TypeInterpreter.repeatUntilLoop fuel self attr index acc stream ctx).2.1.buffer = stream.buffer) ∧
    (∀ self attr stream ctx,
      (TypeInterpreter.parseValue fuel self attr stream ctx).2.1.buffer = stream.buffer) ∧
    (∀ self t stream ctx targs,
      (TypeInterpreter.parseType fuel self t stream ctx targs).2.buffer = stream.buffer) ∧
    (∀ self sw stream ctx,
      (TypeInterpreter.parseSwitchType fuel self sw stream ctx).2.buffer = stream.buffer) := by
  induction fuel with
  | zero =>
    exact ⟨fun _ _ _ _ => rfl, fun _ _ _ _ => rfl, fun _ _ _ _ => rfl,
      fun _ _ _ _ => rfl, fun _ _ _ _ => rfl, fun _ _ _ _ _ _ _ => rfl,
      fun _ _ _ _ _ => rfl, fun _ _ _ _ _ _ => rfl, fun _ _ _ _ => rfl,
      fun _ _ _ _ _ => rfl, fun _ _ _ _ => rfl⟩
  | succ f ih =>
    obtain ⟨ihParse, ihSeq, ihAttr, ihBody, ihRep, ihExpr, ihEos, ihUntil,
      ihVal, ihType, ihSwitch⟩ := ih
    refine ⟨?_, ?_, ?_, ?_, ?_, ?_, ?_, ?_, ?_, ?_, ?_⟩
    -- parse
    · intro self stream parent targs
      simp only [TypeInterpreter.parse]
      split
      · rfl
      · rename_i ctx1 hpb
        rcases hseq : TypeInterpreter.parseSeqFields f self (self.schema.seq.getD [])
          stream ctx1 with ⟨r, stream1, ctx2⟩
        have hb := ihSeq self (self.schema.seq.getD []) stream ctx1
        rw [hseq] at hb
        cases r <;> simpa using hb
    -- parseSeqFields
    · intro self attrs stream ctx
      cases attrs with
      | nil => rfl
      | cons attr rest =>
        simp only [TypeInterpreter.parseSeqFields]
        rcases hA : TypeInterpreter.parseAttribute f self attr stream ctx with ⟨r, stream1, ctx1⟩
        have hb := ihAttr self attr stream ctx
        rw [hA] at hb
        simp only at hb
        cases r with
        | error e => simpa using hb
        | ok v => exact (ihSeq self rest stream1 _).trans hb
    -- parseAttribute
    · intro self attr stream ctx
      simp only [TypeInterpreter.parseAttribute]
      split
      · split
        · rfl
        · split
          · rfl
          · exact ihBody self attr stream ctx
      · exact ihBody self attr stream ctx
    -- parseAttributeBody
    · intro self attr stream ctx
      simp only [TypeInterpreter.parseAttributeBody]
      split
      · rfl
      · rename_i stream1 hps
        have hb1 : stream1.buffer = stream.buffer := evalPosStep_buffer hps
        split
        · simpa using hb1
        · split
          · exact (ihRep self attr stream1 ctx).trans hb1
          · split
            · rcases hpc : parseContents self attr stream1 with ⟨r2, stream2⟩
              have hx := parseContents_buffer self attr stream1
              rw [hpc] at hx
              simp only at hx
              cases r2 <;> simpa using hx.trans hb1
            · exact (ihVal self attr stream1 ctx).trans hb1
    -- parseRepeated
    · intro self attr stream ctx
      simp only [TypeInterpreter.parseRepeated]
      split
      · split
        · rfl
        · rename_i countValue hev
          split
          · rfl
          · rcases hL : TypeInterpreter.repeatExprLoop f self attr
              (jsIntOrZero countValue).toNat 0 [] stream ctx with ⟨r, s1, c1⟩
            have hb := ihExpr self attr (jsIntOrZero countValue).toNat 0 [] stream ctx
            rw [hL] at hb
            cases r <;> simpa using hb
      · rcases hL : TypeInterpreter.repeatEosLoop f self attr [] stream ctx with ⟨r, s1, c1⟩
        have hb := ihEos self attr [] stream ctx
        rw [hL] at hb
        cases r <;> simpa using hb
      · split
        · rfl
        · rcases hL : TypeInterpreter.repeatUntilLoop f self attr 0 [] stream ctx with ⟨r, s1, c1⟩
          have hb := ihUntil self attr 0 [] stream ctx
          rw [hL] at hb
          cases r <;> simpa using hb
      · rfl
    -- repeatExprLoop
    · intro self attr count i acc stream ctx
      cases count with
      | zero => rfl
      | succ c =>
        simp only [TypeInterpreter.repeatExprLoop]
        rcases hA : TypeInterpreter.parseAttribute f self (clearRepeatExpr attr) stream
          (ctx.set "_index" (.num i)) with ⟨r, stream1, ctx2⟩
        have hb := ihAttr self (clearRepeatExpr attr) stream (ctx.set "_index" (.num i))
        rw [hA] at hb
        simp only at hb
        cases r with
        | error e => simpa using hb
        | ok v => exact (ihExpr self attr c (i + 1) (acc ++ [v]) stream1 ctx2).trans hb
    -- repeatEosLoop
    · intro self attr acc stream ctx
      simp only [TypeInterpreter.repeatEosLoop]
      split
      · rfl
      · rcases hA : TypeInterpreter.parseValue f self attr stream
          (ctx.set "_index" (.num acc.length)) with ⟨r, stream1, ctx2⟩
        have hb := ihVal self attr stream (ctx.set "_index" (.num acc.length))
        rw [hA] at hb
        simp only at hb
        cases r with
        | error e => simpa using hb
        | ok v => exact (ihEos self attr (acc ++ [v]) stream1 ctx2).trans hb
    -- repeatUntilLoop
    · intro self attr index acc stream ctx
      simp only [TypeInterpreter.repeatUntilLoop]
      rcases hA : TypeInterpreter.parseAttribute f self (clearRepeatUntil attr) stream
        (ctx.set "_index" (.num index)) with ⟨r, stream1, ctx2⟩
      have hb := ihAttr self (clearRepeatUntil attr) stream (ctx.set "_index" (.num index))
      rw [hA] at hb
      simp only at hb
      cases r with
      | error e => simpa using hb
      | ok v =>
        simp only []
        cases hev : evaluateValue attr.repeatUntil (ctx2.set "_" v) with
        | error e => simpa using hb
        | ok condV =>
          simp only []
          split
          · simpa using hb
          · split
            · simpa using hb
            · exact (ihUntil self attr (index + 1) (acc ++ [v]) stream1 _).trans hb
    -- parseValue
    · intro self attr stream ctx
      simp only [TypeInterpreter.parseValue]
      split
      · split
        · rfl
        · rename_i sizeVal hev
          split
          · rfl
          · split
            · -- "str" with size
              split
              · rfl
              · rename_i str stream1 hr
                exact readStr_buffer hr
            · -- bytes with size
              split
              · rfl
              · rename_i bs stream1 hr
                have he := ensuredRead_stream_eq hr
                subst he
                rfl
            · -- substream with size
              split
              · rfl
              · rename_i child parent1 hr
                have he := substream_parent_eq hr
                subst he
                split <;> rfl
      · split
        · split <;> rfl
        · split
          · rfl
          · rename_i t htp
            rcases hT : TypeInterpreter.parseType f self t stream ctx attr.typeArgs with ⟨r, stream1⟩
            have hb := ihType self t stream ctx attr.typeArgs
            rw [hT] at hb
            simpa using hb
    -- parseType
    · intro self t stream ctx targs
      simp only [TypeInterpreter.parseType]
      rcases t with tname | sw
      · simp only []
        split
        · split
          · rfl
          · rename_i v stream1 hpb
            exact parseBuiltinType_buffer hpb
        · split
          · split
            · split
              · rfl
              · rename_i self2 hnew
                rcases hP : TypeInterpreter.parse f self2 stream (some (.obj ctx.current)) targs with ⟨r, stream1⟩
                have hb := ihParse self2 stream (some (.obj ctx.current)) targs
                rw [hP] at hb
                cases r <;> simpa using hb
            · rfl
          · rfl
      · exact ihSwitch self sw stream ctx
    -- parseSwitchType
    · intro self sw stream ctx
      simp only [TypeInterpreter.parseSwitchType]
      split
      · rfl
      · split
        · rfl
        · split
          · rfl
          · split
            · rfl
            · rename_i tname hsel
              exact ihType self (.inl tname) stream ctx none

theorem parseAttribute_u1 (fuel : Nat) (self : Interp) (attr : AttributeSpec)
    (stream s1 : KaitaiStream) (ctx : Context) (w : Int)
    (hif : attr.ifExpr = none) (hpos : attr.pos = none) (hio : attr.ioSpec = none)
    (hrep : attr.repeatSpec = none) (hcont : attr.contents = none)
    (hsize : attr.size = none) (hseos : attr.sizeEos = false)
    (htype : attr.type = some (.inl "u1"))
    (hlen : stream.pos + 1 ≤ stream.buffer.length)
    (hbyte : Int.ofNat (stream.byteAt stream.pos) = w)
    (hs1 : ({ stream with pos := stream.pos + 1 } : KaitaiStream) = s1) :
    TypeInterpreter.parseAttribute (fuel + 4) self attr stream ctx =
      (.ok (.num w), s1, ctx) := by
  have hr := ensuredRead_ok 1 (fun t => t.byteAt t.pos) stream hlen
  have e1 : isBuiltinType "u1" = true := by with_unfolding_all rfl
  have e2 : isIntegerType "u1" = true := by with_unfolding_all rfl
  have e3 : getBaseType "u1" = "u1" := by with_unfolding_all rfl
  simp [TypeInterpreter.parseAttribute, TypeInterpreter.parseAttributeBody,
    TypeInterpreter.parseValue, TypeInterpreter.parseType, evalPosStep,
    parseBuiltinType, readInteger, mapVal, KaitaiStream.readU1,
    hif, hpos, hio, hrep, hcont, hsize, hseos, htype,
    hr, e1, e2, e3, hs1]
  exact_mod_cast hbyte

theorem parseSeqFields_nil (fuel : Nat) (self : Interp) (stream : KaitaiStream)
    (ctx : Context) :
    TypeInterpreter.parseSeqFields (fuel + 1) self [] stream ctx = (.ok (), stream, ctx) := by
  simp only [TypeInterpreter.parseSeqFields]

theorem parseSeqFields_cons (fuel : Nat) (self : Interp) (attr : AttributeSpec)
    (rest : List AttributeSpec) (stream : KaitaiStream) (ctx : Context) (i : String)
    (v : Value) (s1 : KaitaiStream) (c1 : Context) (cur2 : List (String × Value))
    (hid : attr.id = some i)
    (hpa : TypeInterpreter.parseAttribute fuel self attr stream ctx = (.ok v, s1, c1))
    (hcur : setKey c1.current i v = cur2) :
    TypeInterpreter.parseSeqFields (fuel + 1) self (attr :: rest) stream ctx =
      TypeInterpreter.parseSeqFields fuel self rest s1 { c1 with current := cur2 } := by
  simp only [TypeInterpreter.parseSeqFields, hpa, hid, hcur]

theorem parseAttribute_repeat (fuel : Nat) (self : Interp) (attr : AttributeSpec)
    (stream : KaitaiStream) (ctx : Context)
    (hif : attr.ifExpr = none) (hpos : attr.pos = none) (hio : attr.ioSpec = none)
    (hrep : attr.repeatSpec.isSome = true) :
    TypeInterpreter.parseAttribute (fuel + 2) self attr stream ctx =
      TypeInterpreter.parseRepeated fuel self attr stream ctx := by
  simp only [TypeInterpreter.parseAttribute, hif, TypeInterpreter.parseAttributeBody,
    evalPosStep, hpos, hio, hrep, Option.isSome_none, Bool.false_eq_true,
    if_false, if_true]

theorem parseRepeated_expr (fuel : Nat) (self : Interp) (attr : AttributeSpec)
    (stream : KaitaiStream) (ctx : Context) (cv : Value) (n : Nat)
    (hrs : attr.repeatSpec = some "expr")
    (hev : evaluateValue attr.repeatExpr ctx = .ok cv)
    (hnn : ¬ jsIntOrZero cv < 0)
    (hn : (jsIntOrZero cv).toNat = n) :
    TypeInterpreter.parseRepeated (fuel + 1) self attr stream ctx =
      (match TypeInterpreter.repeatExprLoop fuel self attr n 0 [] stream ctx with
       | (.error e, s1, c1) => (.error e, s1, c1)
       | (.ok vs, s1, c1) => (.ok (.arr vs), s1, c1)) := by
  simp only [TypeInterpreter.parseRepeated, hrs, hev, if_neg hnn, hn]

theorem repeatExprLoop_zero (fuel : Nat) (self : Interp) (attr : AttributeSpec)
    (i : Nat) (acc : List Value) (stream : KaitaiStream) (ctx : Context) :
    TypeInterpreter.repeatExprLoop (fuel + 1) self attr 0 i acc stream ctx =
      (.ok acc, stream, ctx) := by
  simp only [TypeInterpreter.repeatExprLoop]

theorem repeatExprLoop_step (fuel : Nat) (self : Interp) (attr : AttributeSpec)
    (c i : Nat) (acc acc2 : List Value) (stream : KaitaiStream) (ctx ctx1 : Context)
    (v : Value) (s1 : KaitaiStream) (c1 : Context)
    (hset : ctx.set "_index" (.num i) = ctx1)
    (hpa : TypeInterpreter.parseAttribute fuel self (clearRepeatExpr attr) stream ctx1 =
      (.ok v, s1, c1))
    (hacc : acc ++ [v] = acc2) :
    TypeInterpreter.repeatExprLoop (fuel + 1) self attr (c + 1) i acc stream ctx =
      TypeInterpreter.repeatExprLoop fuel self attr c (i + 1) acc2 s1 c1 := by
  simp only [TypeInterpreter.repeatExprLoop, hset, hpa, hacc]

theorem parse_ok (fuel : Nat) (self : Interp) (stream : KaitaiStream)
    (parent : Option Value) (attrs : List AttributeSpec) (ctx0 : Context)
    (s1 : KaitaiStream) (c1 : Context)
    (hattrs : self.schema.seq.getD [] = attrs)
    (hctx0 : Context.new parent self.schema.enums = ctx0)
    (hseq : TypeInterpreter.parseSeqFields fuel self attrs stream ctx0 = (.ok (), s1, c1)) :
    TypeInterpreter.parse (fuel + 1) self stream parent none = (.ok c1.current, s1) := by
  simp only [TypeInterpreter.parse, hattrs, hctx0, hseq]

/-- The three fields of the scenario-S3 schema. -/
def attrA : AttributeSpec := { id := some "a", type := some (.inl "u1") }

/-- Field b of scenario S3. -/
def attrB : AttributeSpec := { id := some "b", type := some (.inl "u1") }

/-- Field vs of scenario S3: u1, repeat-expr (a + b) * 2. -/
def attrC9 : AttributeSpec :=
  { id := some "vs", type := some (.inl "u1"), repeatSpec := some "expr",
    repeatExpr := some (.expr (.binop "*"
      (.binop "+" (.ident "a") (.ident "b")) (.lit (.num 2)))) }

/-- The scenario-S3 schema: seq = [a: u1, b: u1, vs: u1 repeat-expr
(a + b) * 2]. -/
def schemaS3 : KsySchema := .mk
  (some { id := "scenario_s3" })
  (some [attrA, attrB, attrC9])
  none none none none

/-- The interpreter over the scenario-S3 schema. -/
def selfS3 : Interp := ⟨schemaS3, none⟩

/-- The scenario-S3 input 02 03 01 02 03 04 05 06 07 08 09 0A at
position p. -/
def stS3 (p : Nat) : KaitaiStream := ⟨[2, 3, 1, 2, 3, 4, 5, 6, 7, 8, 9, 10], p, 0, 0⟩

/-- The scenario-S3 stream at its start. -/
def streamS3 : KaitaiStream := stS3 0

/-- The vs array scenario S3 produces. -/
def vsS3 : List Value :=
  [.num 1, .num 2, .num 3, .num 4, .num 5, .num 6, .num 7, .num 8, .num 9, .num 10]

/-- The object the interpreter actually produces for scenario S3: the
expected fields plus the leaked `_index` bookkeeping key. -/
def c9Result : List (String × Value) :=
  [("a", .num 2), ("b", .num 3), ("_index", .num 9), ("vs", .arr vsS3)]

/-- The fresh root context of the S3 run. -/
def ctxS3 : Context := ⟨[], [], [], .rootRef⟩

/-- The context after field a. -/
def cA : Context := ⟨[], [("a", .num 2)], [], .rootRef⟩

/-- The context after fields a and b. -/
def cB : Context := ⟨[], [("a", .num 2), ("b", .num 3)], [], .rootRef⟩

/-- The context during the repeat loop, after `_index` is set to j. -/
def ctxI (j : Int) : Context :=
  ⟨[], [("a", .num 2), ("b", .num 3), ("_index", .num j)], [], .rootRef⟩

/-- The final S3 context. -/
def cF : Context := ⟨[], c9Result, [], .rootRef⟩

/-- The repeat-expr parse of the vs field of scenario S3, assembled read
by read: ten u1 values, stream left at 12, `_index` left at 9. -/
theorem parseRepeatedS3_eq :
    TypeInterpreter.parseRepeated 15 selfS3 attrC9 (stS3 2) cB =
      (.ok (.arr vsS3), stS3 12, ctxI 9) := by
  have hp0 : TypeInterpreter.parseAttribute 13 selfS3 (clearRepeatExpr attrC9) (stS3 2) (ctxI 0) = (.ok (.num 1), stS3 3, ctxI 0) :=
    parseAttribute_u1 9 selfS3 (clearRepeatExpr attrC9) (stS3 2) (stS3 3) (ctxI 0) 1 rfl rfl rfl rfl rfl rfl rfl rfl (by decide) (by decide) rfl
  have hL0 : TypeInterpreter.repeatExprLoop 14 selfS3 attrC9 10 0 ([] : List Value) (stS3 2) cB = TypeInterpreter.repeatExprLoop 13 selfS3 attrC9 9 1 [.num 1] (stS3 3) (ctxI 0) :=
    repeatExprLoop_step 13 selfS3 attrC9 9 0 ([] : List Value) [.num 1] (stS3 2) cB (ctxI 0) (.num 1) (stS3 3) (ctxI 0) rfl hp0 rfl
  have hp1 : TypeInterpreter.parseAttribute 12 selfS3 (clearRepeatExpr attrC9) (stS3 3) (ctxI 1) = (.ok (.num 2), stS3 4, ctxI 1) :=
    parseAttribute_u1 8 selfS3 (clearRepeatExpr attrC9) (stS3 3) (stS3 4) (ctxI 1) 2 rfl rfl rfl rfl rfl rfl rfl rfl (by decide) (by decide) rfl
  have hL1 : TypeInterpreter.repeatExprLoop 13 selfS3 attrC9 9 1 [.num 1] (stS3 3) (ctxI 0) = TypeInterpreter.repeatExprLoop 12 selfS3 attrC9 8 2 [.num 1, .num 2] (stS3 4) (ctxI 1) :=
    repeatExprLoop_step 12 selfS3 attrC9 8 1 [.num 1] [.num 1, .num 2] (stS3 3) (ctxI 0) (ctxI 1) (.num 2) (stS3 4) (ctxI 1) rfl hp1 rfl
  have hp2 : TypeInterpreter.parseAttribute 11 selfS3 (clearRepeatExpr attrC9) (stS3 4) (ctxI 2) = (.ok (.num 3), stS3 5, ctxI 2) :=
    parseAttribute_u1 7 selfS3 (clearRepeatExpr attrC9) (stS3 4) (stS3 5) (ctxI 2) 3 rfl rfl rfl rfl rfl rfl rfl rfl (by decide) (by decide) rfl
  have hL2 : TypeInterpreter.repeatExprLoop 12 selfS3 attrC9 8 2 [.num 1, .num 2] (stS3 4) (ctxI 1) = TypeInterpreter.repeatExprLoop 11 selfS3 attrC9 7 3 [.num 1, .num 2, .num 3] (stS3 5) (ctxI 2) :=
    repeatExprLoop_step 11 selfS3 attrC9 7 2 [.num 1, .num 2] [.num 1, .num 2, .num 3] (stS3 4) (ctxI 1) (ctxI 2) (.num 3) (stS3 5) (ctxI 2) rfl hp2 rfl
  have hp3 : TypeInterpreter.parseAttribute 10 selfS3 (clearRepeatExpr attrC9) (stS3 5) (ctxI 3) = (.ok (.num 4), stS3 6, ctxI 3) :=
    parseAttribute_u1 6 selfS3 (clearRepeatExpr attrC9) (stS3 5) (stS3 6) (ctxI 3) 4 rfl rfl rfl rfl rfl rfl rfl rfl (by decide) (by decide) rfl
  have hL3 : TypeInterpreter.repeatExprLoop 11 selfS3 attrC9 7 3 [.num 1, .num 2, .num 3] (stS3 5) (ctxI 2) = TypeInterpreter.repeatExprLoop 10 selfS3 attrC9 6 4 [.num 1, .num 2, .num 3, .num 4] (stS3 6) (ctxI 3) :=
    repeatExprLoop_step 10 selfS3 attrC9 6 3 [.num 1, .num 2, .num 3] [.num 1, .num 2, .num 3, .num 4] (stS3 5) (ctxI 2) (ctxI 3) (.num 4) (stS3 6) (ctxI 3) rfl hp3 rfl
  have hp4 : TypeInterpreter.parseAttribute 9 selfS3 (clearRepeatExpr attrC9) (stS3 6) (ctxI 4) = (.ok (.num 5), stS3 7, ctxI 4) :=
    parseAttribute_u1 5 selfS3 (clearRepeatExpr attrC9) (stS3 6) (stS3 7) (ctxI 4) 5 rfl rfl rfl rfl rfl rfl rfl rfl (by decide) (by decide) rfl
  have hL4 : TypeInterpreter.repeatExprLoop 10 selfS3 attrC9 6 4 [.num 1, .num 2, .num 3, .num 4] (stS3 6) (ctxI 3) = TypeInterpreter.repeatExprLoop 9 selfS3 attrC9 5 5 [.num 1, .num 2, .num 3, .num 4, .num 5] (stS3 7) (ctxI 4) :=
    repeatExprLoop_step 9 selfS3 attrC9 5 4 [.num 1, .num 2, .num 3, .num 4] [.num 1, .num 2, .num 3, .num 4, .num 5] (stS3 6) (ctxI 3) (ctxI 4) (.num 5) (stS3 7) (ctxI 4) rfl hp4 rfl
  have hp5 : TypeInterpreter.parseAttribute 8 selfS3 (clearRepeatExpr attrC9) (stS3 7) (ctxI 5) = (.ok (.num 6), stS3 8, ctxI 5) :=
    parseAttribute_u1 4 selfS3 (clearRepeatExpr attrC9) (stS3 7) (stS3 8) (ctxI 5) 6 rfl rfl rfl rfl rfl rfl rfl rfl (by decide) (by decide) rfl
  have hL5 : TypeInterpreter.repeatExprLoop 9 selfS3 attrC9 5 5 [.num 1, .num 2, .num 3, .num 4, .num 5] (stS3 7) (ctxI 4) = TypeInterpreter.repeatExprLoop 8 selfS3 attrC9 4 6 [.num 1, .num 2, .num 3, .num 4, .num 5, .num 6] (stS3 8) (ctxI 5) :=
    repeatExprLoop_step 8 selfS3 attrC9 4 5 [.num 1, .num 2, .num 3, .num 4, .num 5] [.num 1, .num 2, .num 3, .num 4, .num 5, .num 6] (stS3 7) (ctxI 4) (ctxI 5) (.num 6) (stS3 8) (ctxI 5) rfl hp5 rfl
  have hp6 : TypeInterpreter.parseAttribute 7 selfS3 (clearRepeatExpr attrC9) (stS3 8) (ctxI 6) = (.ok (.num 7), stS3 9, ctxI 6) :=
    parseAttribute_u1 3 selfS3 (clearRepeatExpr attrC9) (stS3 8) (stS3 9) (ctxI 6) 7 rfl rfl rfl rfl rfl rfl rfl rfl (by decide) (by decide) rfl
  have hL6 : TypeInterpreter.repeatExprLoop 8 selfS3 attrC9 4 6 [.num 1, .num 2, .num 3, .num 4, .num 5, .num 6] (stS3 8) (ctxI 5) = TypeInterpreter.repeatExprLoop 7 selfS3 attrC9 3 7 [.num 1, .num 2, .num 3, .num 4, .num 5, .num 6, .num 7] (stS3 9) (ctxI 6) :=
    repeatExprLoop_step 7 selfS3 attrC9 3 6 [.num 1, .num 2, .num 3, .num 4, .num 5, .num 6] [.num 1, .num 2, .num 3, .num 4, .num 5, .num 6, .num 7] (stS3 8) (ctxI 5) (ctxI 6) (.num 7) (stS3 9) (ctxI 6) rfl hp6 rfl
  have hp7 : TypeInterpreter.parseAttribute 6 selfS3 (clearRepeatExpr attrC9) (stS3 9) (ctxI 7) = (.ok (.num 8), stS3 10, ctxI 7) :=
    parseAttribute_u1 2 selfS3 (clearRepeatExpr attrC9) (stS3 9) (stS3 10) (ctxI 7) 8 rfl rfl rfl rfl rfl rfl rfl rfl (by decide) (by decide) rfl
  have hL7 : TypeInterpreter.repeatExprLoop 7 selfS3 attrC9 3 7 [.num 1, .num 2, .num 3, .num 4, .num 5, .num 6, .num 7] (stS3 9) (ctxI 6) = TypeInterpreter.repeatExprLoop 6 selfS3 attrC9 2 8 [.num 1, .num 2, .num 3, .num 4, .num 5, .num 6, .num 7, .num 8] (stS3 10) (ctxI 7) :=
    repeatExprLoop_step 6 selfS3 attrC9 2 7 [.num 1, .num 2, .num 3, .num 4, .num 5, .num 6, .num 7] [.num 1, .num 2, .num 3, .num 4, .num 5, .num 6, .num 7, .num 8] (stS3 9) (ctxI 6) (ctxI 7) (.num 8) (stS3 10) (ctxI 7) rfl hp7 rfl
  have hp8 : TypeInterpreter.parseAttribute 5 selfS3 (clearRepeatExpr attrC9) (stS3 10) (ctxI 8) = (.ok (.num 9), stS3 11, ctxI 8) :=
    parseAttribute_u1 1 selfS3 (clearRepeatExpr attrC9) (stS3 10) (stS3 11) (ctxI 8) 9 rfl rfl rfl rfl rfl rfl rfl rfl (by decide) (by decide) rfl
  have hL8 : TypeInterpreter.repeatExprLoop 6 selfS3 attrC9 2 8 [.num 1, .num 2, .num 3, .num 4, .num 5, .num 6, .num 7, .num 8] (stS3 10) (ctxI 7) = TypeInterpreter.repeatExprLoop 5 selfS3 attrC9 1 9 [.num 1, .num 2, .num 3, .num 4, .num 5, .num 6, .num 7, .num 8, .num 9] (stS3 11) (ctxI 8) :=
    repeatExprLoop_step 5 selfS3 attrC9 1 8 [.num 1, .num 2, .num 3, .num 4, .num 5, .num 6, .num 7, .num 8] [.num 1, .num 2, .num 3, .num 4, .num 5, .num 6, .num 7, .num 8, .num 9] (stS3 10) (ctxI 7) (ctxI 8) (.num 9) (stS3 11) (ctxI 8) rfl hp8 rfl
  have hp9 : TypeInterpreter.parseAttribute 4 selfS3 (clearRepeatExpr attrC9) (stS3 11) (ctxI 9) = (.ok (.num 10), stS3 12, ctxI 9) :=
    parseAttribute_u1 0 selfS3 (clearRepeatExpr attrC9) (stS3 11) (stS3 12) (ctxI 9) 10 rfl rfl rfl rfl rfl rfl rfl rfl (by decide) (by decide) rfl
  have hL9 : TypeInterpreter.repeatExprLoop 5 selfS3 attrC9 1 9 [.num 1, .num 2, .num 3, .num 4, .num 5, .num 6, .num 7, .num 8, .num 9] (stS3 11) (ctxI 8) = TypeInterpreter.repeatExprLoop 4 selfS3 attrC9 0 10 [.num 1, .num 2, .num 3, .num 4, .num 5, .num 6, .num 7, .num 8, .num 9, .num 10] (stS3 12) (ctxI 9) :=
    repeatExprLoop_step 4 selfS3 attrC9 0 9 [.num 1, .num 2, .num 3, .num 4, .num 5, .num 6, .num 7, .num 8, .num 9] [.num 1, .num 2, .num 3, .num 4, .num 5, .num 6, .num 7, .num 8, .num 9, .num 10] (stS3 11) (ctxI 8) (ctxI 9) (.num 10) (stS3 12) (ctxI 9) rfl hp9 rfl
  have hL10 : TypeInterpreter.repeatExprLoop 4 selfS3 attrC9 0 10 [.num 1, .num 2, .num 3, .num 4, .num 5, .num 6, .num 7, .num 8, .num 9, .num 10] (stS3 12) (ctxI 9) = (.ok [.num 1, .num 2, .num 3, .num 4, .num 5, .num 6, .num 7, .num 8, .num 9, .num 10], stS3 12, ctxI 9) :=
    repeatExprLoop_zero 3 selfS3 attrC9 10 [.num 1, .num 2, .num 3, .num 4, .num 5, .num 6, .num 7, .num 8, .num 9, .num 10] (stS3 12) (ctxI 9)
  have hLoop : TypeInterpreter.repeatExprLoop 14 selfS3 attrC9 10 0 ([] : List Value) (stS3 2) cB = (.ok [.num 1, .num 2, .num 3, .num 4, .num 5, .num 6, .num 7, .num 8, .num 9, .num 10], stS3 12, ctxI 9) :=
    hL0.trans (hL1.trans (hL2.trans (hL3.trans (hL4.trans (hL5.trans (hL6.trans (hL7.trans (hL8.trans (hL9.trans hL10)))))))))
  have hev : evaluateValue attrC9.repeatExpr cB = .ok (.num 10) := by with_unfolding_all rfl
  exact (parseRepeated_expr 14 selfS3 attrC9 (stS3 2) cB (.num 10) 10 rfl hev (by decide) rfl).trans (by rw [hLoop]; rfl)

/-- The full scenario-S3 run: the three fields in sequence. -/
theorem parseS3_eq :
    TypeInterpreter.parse 21 selfS3 streamS3 none none = (.ok c9Result, stS3 12) := by
  have hvs : TypeInterpreter.parseAttribute 17 selfS3 attrC9 (stS3 2) cB = (.ok (.arr vsS3), stS3 12, ctxI 9) :=
    (parseAttribute_repeat 15 selfS3 attrC9 (stS3 2) cB rfl rfl rfl rfl).trans parseRepeatedS3_eq
  have hA : TypeInterpreter.parseAttribute 19 selfS3 attrA streamS3 ctxS3 = (.ok (.num 2), stS3 1, ctxS3) :=
    parseAttribute_u1 15 selfS3 attrA streamS3 (stS3 1) ctxS3 2 rfl rfl rfl rfl rfl rfl rfl rfl (by decide) (by decide) rfl
  have hB : TypeInterpreter.parseAttribute 18 selfS3 attrB (stS3 1) cA = (.ok (.num 3), stS3 2, cA) :=
    parseAttribute_u1 14 selfS3 attrB (stS3 1) (stS3 2) cA 3 rfl rfl rfl rfl rfl rfl rfl rfl (by decide) (by decide) rfl
  have hSa : TypeInterpreter.parseSeqFields 20 selfS3 [attrA, attrB, attrC9] streamS3 ctxS3 = TypeInterpreter.parseSeqFields 19 selfS3 [attrB, attrC9] (stS3 1) cA :=
    parseSeqFields_cons 19 selfS3 attrA [attrB, attrC9] streamS3 ctxS3 "a" (.num 2) (stS3 1) ctxS3 [("a", .num 2)] rfl hA rfl
  have hSb : TypeInterpreter.parseSeqFields 19 selfS3 [attrB, attrC9] (stS3 1) cA = TypeInterpreter.parseSeqFields 18 selfS3 [attrC9] (stS3 2) cB :=
    parseSeqFields_cons 18 selfS3 attrB [attrC9] (stS3 1) cA "b" (.num 3) (stS3 2) cA [("a", .num 2), ("b", .num 3)] rfl hB rfl
  have hSv : TypeInterpreter.parseSeqFields 18 selfS3 [attrC9] (stS3 2) cB = TypeInterpreter.parseSeqFields 17 selfS3 [] (stS3 12) cF :=
    parseSeqFields_cons 17 selfS3 attrC9 [] (stS3 2) cB "vs" (.arr vsS3) (stS3 12) (ctxI 9) c9Result rfl hvs rfl
  have hSnil : TypeInterpreter.parseSeqFields 17 selfS3 [] (stS3 12) cF = (.ok (), stS3 12, cF) :=
    parseSeqFields_nil 16 selfS3 (stS3 12) cF
  have hSeq : TypeInterpreter.parseSeqFields 20 selfS3 [attrA, attrB, attrC9] streamS3 ctxS3 = (.ok (), stS3 12, cF) :=
    hSa.trans (hSb.trans (hSv.trans hSnil))
  exact parse_ok 20 selfS3 streamS3 none [attrA, attrB, attrC9] ctxS3 (stS3 12) cF rfl rfl hSeq


theorem parseInstanceBody_buffer (fuel : Nat) (self : Interp) (inst : InstanceSpec)
    (stream : KaitaiStream) (ctx : Context) :
    (TypeInterpreter.parseInstanceBody fuel self inst stream ctx).2.1.buffer = stream.buffer := by
  unfold TypeInterpreter.parseInstanceBody
  split
  · split
    · rfl
    · split
      · rfl
      · rename_i stream1 hsk
        exact ((interpBuffers fuel).2.2.1 self inst.attr stream1 ctx).trans (seek_buffer hsk)
    · split
      · rfl
      · rename_i stream1 hsk
        exact ((interpBuffers fuel).2.2.1 self inst.attr stream1 ctx).trans (seek_buffer hsk)
    · rfl
  · exact (interpBuffers fuel).2.2.1 self inst.attr stream ctx

/-- Amended claim C2: for every lazy non-value instance that carries a
`pos` attribute, the active stream's position after `parseInstance`
equals its position before the access, on both the success path and the
failure path (the `finally` restore).  Instances without `pos` do not
restore — their reads advance the stream (see the counterexample). -/
theorem c2_instance_pos_restore (fuel : Nat) (self : Interp) (inst : InstanceSpec)
    (stream : KaitaiStream) (ctx : Context)
    (hval : inst.value = none) (hpos : inst.attr.pos.isSome = true)
    (hs : stream.pos ≤ stream.buffer.length) :
    (TypeInterpreter.parseInstance fuel self inst stream ctx).2.1.pos = stream.pos := by
  unfold TypeInterpreter.parseInstance
  rw [hval]
  simp only []
  rcases hB : TypeInterpreter.parseInstanceBody fuel self inst stream ctx with ⟨r, s1, c1⟩
  have hbuf : s1.buffer = stream.buffer := by
    have := parseInstanceBody_buffer fuel self inst stream ctx
    rw [hB] at this
    exact this
  obtain ⟨pv, hp⟩ := Option.isSome_iff_exists.mp hpos
  rw [hp]
  have hseek : s1.seek (stream.pos : Int) = .ok (s1.setPos stream.pos) := by
    unfold KaitaiStream.seek
    rw [if_neg (by push_cast [hbuf]; omega)]
    simp
  rw [hseek]
  rfl

/-- A minimal root schema for the C2 instance runs. -/
def selfC2 : Interp := ⟨.mk (some { id := "t" }) none none none none none, none⟩

/-- A non-value instance without `pos` reading a `u1`. -/
def instC2 : InstanceSpec := { attr := { type := some (.inl "u1") } }

/-- A non-value instance anchored at `pos: 5` reading a `u1` (scenario S6). -/
def instC2pos : InstanceSpec :=
  { attr := { type := some (.inl "u1"), pos := some (.lit (.num 5)) } }

/-- Counterexample to claim C2: a lazy instance without a `pos` attribute
reads a `u1` at position 0 and leaves the stream at position 1 — the
accessor does not restore the position for instances without `pos`
(`finally` runs `seek(savedPos)` only when `instance.pos` is defined). -/
theorem c2_counterexample :
    (TypeInterpreter.parseInstance 4 selfC2 instC2 ⟨[170], 0, 0, 0⟩ emptyCtx).1 =
      .ok (.num 170) ∧
    (TypeInterpreter.parseInstance 4 selfC2 instC2 ⟨[170], 0, 0, 0⟩ emptyCtx).2.1.pos = 1 ∧
    (1 : Nat) ≠ 0 :=
  ⟨by with_unfolding_all rfl, by decide, by decide⟩

/-- Witness for the amended claim C2: the pos-instance of scenario S6 on
input 01 02 03 04 05 FF accessed at position 2 returns with the stream
back at position 2. -/
theorem c2_instance_pos_restore_witness :
    (TypeInterpreter.parseInstance 4 selfC2 instC2pos
      ⟨[1, 2, 3, 4, 5, 255], 2, 0, 0⟩ emptyCtx).2.1.pos =
      (⟨[1, 2, 3, 4, 5, 255], 2, 0, 0⟩ : KaitaiStream).pos :=
  c2_instance_pos_restore 4 selfC2 instC2pos ⟨[1, 2, 3, 4, 5, 255], 2, 0, 0⟩ emptyCtx
    rfl rfl (by decide)

/-- Amended claim C4: (a) an enum-tagged field stores the raw numeric
value read from the stream — `parseAttribute` ignores the enum tag (a u1
field with an enum tag yields the numeric byte, never a symbolic name);
(b) `Enum::member` evaluates to the numeric key of the first pair (in the
ascending key order of the table) whose name equals the member — in
particular, when member names are distinct, of the unique matching pair;
a comparison such as `t == ft::text` therefore compares numbers. -/
theorem c4_enum_numeric :
    (∀ (fuel : Nat) (self : Interp) (stream : KaitaiStream) (ctx : Context)
        (fieldId enumName : String),
      stream.pos + 1 ≤ stream.buffer.length →
      TypeInterpreter.parseAttribute (fuel + 4) self
          { id := some fieldId, type := some (.inl "u1"), enum := some enumName }
          stream ctx =
        (.ok (.num (Int.ofNat (stream.byteAt stream.pos))),
         { stream with pos := stream.pos + 1 }, ctx)) ∧
    (∀ (ctx : Context) (enumName member : String) (table : List (Int × String))
        (pr : Int × String),
      ctx.enums.lookup enumName = some table →
      table.find? (fun p => p.2 == member) = some pr →
      pr ∈ table ∧ pr.2 = member ∧
      evaluate (.enumAccess enumName member) ctx = .ok (.num pr.1)) := by
  constructor
  · intro fuel self stream ctx fieldId enumName h
    exact parseAttribute_u1 fuel self _ stream _ ctx _ rfl rfl rfl rfl rfl rfl rfl rfl
      h rfl rfl
  · intro ctx enumName member table pr hlk hfind
    refine ⟨List.mem_of_find?_eq_some hfind, ?_, ?_⟩
    · simpa using List.find?_some hfind
    · simp only [evaluate, Context.getEnumValue, hlk, hfind]

/-- Witness for the amended claim C4: a u1 field tagged `enum: ft` over
the byte 01 parses to the number 1 (not a name), and with
ft = ⟨1 ↦ text, 2 ↦ binary⟩ the expression `ft::text` evaluates to 1. -/
theorem c4_enum_numeric_witness :
    TypeInterpreter.parseAttribute 4 selfC2
        { id := some "t", type := some (.inl "u1"), enum := some "ft" }
        ⟨[1, 10], 0, 0, 0⟩ emptyCtx =
      (.ok (.num 1), ⟨[1, 10], 1, 0, 0⟩, emptyCtx) ∧
    evaluate (.enumAccess "ft" "text")
        { emptyCtx with enums := [("ft", [(1, "text"), (2, "binary")])] } =
      .ok (.num 1) :=
  ⟨c4_enum_numeric.1 0 selfC2 ⟨[1, 10], 0, 0, 0⟩ emptyCtx "t" "ft" (by decide),
   (c4_enum_numeric.2 { emptyCtx with enums := [("ft", [(1, "text"), (2, "binary")])] }
      "ft" "text" [(1, "text"), (2, "binary")] (1, "text") rfl rfl).2.2⟩

/-- Counterexample to claim C4 as stated: over the (degenerate but
well-formed) enum table ft = ⟨0 ↦ x, 1 ↦ x⟩, the pair (1, x) is in the
table, yet `ft::x` evaluates to 0 — the reverse lookup takes the first
matching pair, not an arbitrary one. -/
theorem c4_counterexample :
    ((1 : Int), "x") ∈ [((0 : Int), "x"), (1, "x")] ∧
    evaluate (.enumAccess "ft" "x")
        { emptyCtx with enums := [("ft", [(0, "x"), (1, "x")])] } = .ok (.num 0) ∧
    evaluate (.enumAccess "ft" "x")
        { emptyCtx with enums := [("ft", [(0, "x"), (1, "x")])] } ≠ .ok (.num 1) := by
  refine ⟨by decide, rfl, ?_⟩
  intro h
  rw [show evaluate (.enumAccess "ft" "x")
      { emptyCtx with enums := [("ft", [(0, "x"), (1, "x")])] } = .ok (.num 0) from rfl] at h
  simp at h

/-- Claim C6: for every switch-typed field whose discriminant expression
evaluates to a value: if the case map contains the stringified value as a
key, the mapped type is parsed; if there is no matching case but a
default type is given, the default type is parsed; and if neither
exists, parsing fails with a parse error. -/
theorem c6_switch_dispatch (fuel : Nat) (self : Interp) (sw : SwitchTypeSpec)
    (stream : KaitaiStream) (ctx : Context) (disc : Expr)
    (cs : List (String × String)) (v : Value)
    (hso : sw.switchOn = some disc) (hcs : sw.cases = some cs)
    (hev : evaluateValue (some (.expr disc)) ctx = .ok v) :
    (∀ tname, cs.lookup (jsToString v) = some tname →
      TypeInterpreter.parseSwitchType (fuel + 1) self sw stream ctx =
        TypeInterpreter.parseType fuel self (.inl tname) stream ctx none) ∧
    (∀ d, cs.lookup (jsToString v) = none → sw.defaultType = some d →
      TypeInterpreter.parseSwitchType (fuel + 1) self sw stream ctx =
        TypeInterpreter.parseType fuel self (.inl d) stream ctx none) ∧
    (cs.lookup (jsToString v) = none → sw.defaultType = none →
      TypeInterpreter.parseSwitchType (fuel + 1) self sw stream ctx =
        (.error (.parseError
          "No matching case for switch value and no default type specified"),
         stream)) := by
  refine ⟨?_, ?_, ?_⟩
  · intro tname hl
    simp only [TypeInterpreter.parseSwitchType, hso, hcs, hev, hl]
  · intro d hl hd
    simp only [TypeInterpreter.parseSwitchType, hso, hcs, hev, hl, hd]
  · intro hl hd
    simp only [TypeInterpreter.parseSwitchType, hso, hcs, hev, hl, hd]

/-- A minimal root schema for the C6 switch runs. -/
def selfC6 : Interp := ⟨.mk (some { id := "t6" }) none none none none none, none⟩

/-- A switch type over the constant discriminant 1 with the single case
"1" ↦ u1 and no default. -/
def swC6 : SwitchTypeSpec :=
  { switchOn := some (.lit (.num 1)), cases := some [("1", "u1")], defaultType := none }

/-- Witness for claim C6: the discriminant 1 stringifies to "1", which
hits the case "1" ↦ u1, so the switch parse is the parse of `u1`. -/
theorem c6_switch_dispatch_witness :
    TypeInterpreter.parseSwitchType 3 selfC6 swC6 ⟨[7], 0, 0, 0⟩ emptyCtx =
      TypeInterpreter.parseType 2 selfC6 (.inl "u1") ⟨[7], 0, 0, 0⟩ emptyCtx none :=
  (c6_switch_dispatch 2 selfC6 swC6 ⟨[7], 0, 0, 0⟩ emptyCtx (.lit (.num 1))
    [("1", "u1")] (.num 1) rfl rfl (by with_unfolding_all rfl)).1 "u1"
    (by with_unfolding_all rfl)

/-- Each successful run of the repeat-expr loop returns exactly `count`
elements more than the accumulator held. -/
theorem repeatExprLoop_length (fuel : Nat) :
    ∀ (self : Interp) (attr : AttributeSpec) (count i : Nat) (acc : List Value)
      (stream : KaitaiStream) (ctx : Context) (vs : List Value)
      (s1 : KaitaiStream) (c1 : Context),
      TypeInterpreter.repeatExprLoop fuel self attr count i acc stream ctx =
        (.ok vs, s1, c1) →
      vs.length = acc.length + count := by
  induction fuel with
  | zero =>
    intro self attr count i acc stream ctx vs s1 c1 h
    simp [TypeInterpreter.repeatExprLoop] at h
  | succ f ih =>
    intro self attr count i acc stream ctx vs s1 c1 h
    unfold TypeInterpreter.repeatExprLoop at h
    cases count with
    | zero =>
      simp only [Prod.mk.injEq, Except.ok.injEq] at h
      obtain ⟨hv, -, -⟩ := h
      simp [hv]
    | succ c =>
      simp only [] at h
      split at h
      · exact absurd h (by simp)
      · rename_i v stream1 ctx2 hpa
        have := ih self attr c (i + 1) (acc ++ [v]) stream1 ctx2 vs s1 c1 h
        simp only [List.length_append, List.length_cons, List.length_nil] at this
        omega

/-- Counterexample to claim C9 as stated: parsing the scenario-S3 schema
over 02 03 01 02 03 04 05 06 07 08 09 0A yields an object whose key list
is ["a", "b", "_index", "vs"], not exactly {a, b, vs} — `parseRepeated`
writes the loop counter into the result object via
`context.set("_index", i)` and never removes it. -/
theorem c9_counterexample :
    (TypeInterpreter.parse 21 selfS3 streamS3 none none).1 = .ok c9Result ∧
    c9Result.map Prod.fst = ["a", "b", "_index", "vs"] ∧
    ["a", "b", "_index", "vs"] ≠ ["a", "b", "vs"] :=
  ⟨by rw [parseS3_eq], by decide, by decide⟩

/-- Amended claim C9: (a) parsing the scenario-S3 schema over
02 03 01 02 03 04 05 06 07 08 09 0A yields a = 2, b = 3 and
vs = [1, ..., 10] (the object additionally carries the `_index`
bookkeeping key, see the counterexample); (b) in general, every
successful repeat-expr parse whose count expression evaluates to a value
`cv` returns an array of exactly (jsIntOrZero cv).toNat elements. -/
theorem c9_repeat_count :
    ((TypeInterpreter.parse 21 selfS3 streamS3 none none).1 = .ok c9Result ∧
     c9Result.lookup "a" = some (.num 2) ∧
     c9Result.lookup "b" = some (.num 3) ∧
     c9Result.lookup "vs" = some (.arr vsS3) ∧
     vsS3 = [.num 1, .num 2, .num 3, .num 4, .num 5,
             .num 6, .num 7, .num 8, .num 9, .num 10]) ∧
    (∀ (fuel : Nat) (self : Interp) (attr : AttributeSpec)
        (stream : KaitaiStream) (ctx : Context) (cv res : Value)
        (s1 : KaitaiStream) (c1 : Context),
      attr.repeatSpec = some "expr" →
      evaluateValue attr.repeatExpr ctx = .ok cv →
      TypeInterpreter.parseRepeated (fuel + 1) self attr stream ctx =
        (.ok res, s1, c1) →
      ∃ vs, res = .arr vs ∧ vs.length = (jsIntOrZero cv).toNat) := by
  constructor
  · exact ⟨by rw [parseS3_eq], rfl, rfl, rfl, rfl⟩
  · intro fuel self attr stream ctx cv res s1 c1 hrs hev h
    unfold TypeInterpreter.parseRepeated at h
    rw [hrs, hev] at h
    simp only [] at h
    split at h
    · exact absurd h (by simp)
    · split at h
      · exact absurd h (by simp)
      · rename_i vs stream1 ctx1 hloop
        simp only [Prod.mk.injEq, Except.ok.injEq] at h
        obtain ⟨hv, -, -⟩ := h
        refine ⟨vs, hv.symm, ?_⟩
        have := repeatExprLoop_length fuel self attr (jsIntOrZero cv).toNat 0 []
          stream ctx vs stream1 ctx1 hloop
        simpa using this

/-- Witness for the amended claim C9: the count expression (a + b) * 2
evaluates to 10 in the context {a: 2, b: 3}, and the repeat-expr parse
of the vs field returns an array of exactly 10 elements. -/
theorem c9_repeat_count_witness :
    ∃ vs, Value.arr vsS3 = .arr vs ∧
      vs.length = (jsIntOrZero (.num 10)).toNat :=
  c9_repeat_count.2 14 selfS3 attrC9 (stS3 2) cB (.num 10) (.arr vsS3)
    (stS3 12) (ctxI 9) rfl (by with_unfolding_all rfl) parseRepeatedS3_eq
